import Mathlib

/-!
# Verification of the MetronInfo tag converter (`metroninfoxml.py`)

A shallow embedding of the MetronInfo XML tag reader/writer.  The heart of
the module is `_convert_metadata_to_xml` (lines 202-557 of the source),
which merges a generic metadata record into an (optionally pre-existing)
`MetronInfo` XML document.  We model:

* `ET.Element` trees as the inductive `Element` (tag, attribute list,
  optional text, children).  Python's `ElementTree` attribute dictionary is
  modelled as an insertion-ordered association list, which matches dict
  semantics for the operations the source uses (lookup, insert/overwrite).
* the metadata record `GenericMetadata` as the structure `MD`, keeping
  exactly the fields the converter reads.  String fields whose absence the
  source only ever tests with Python truthiness (`if md.x:`) are plain
  `String`s with `""` as the absent value (`None` and `""` are
  indistinguishable to every use site); fields tested with `is not None`
  or dereferenced (`series_id`, `manga`, `data_origin`) are `Option`s;
  numeric fields are `Option Int`.
* Python string helpers (`casefold`, `lower`, `replace`, `split`, `strip`,
  `capitalize`, `startswith`) as character-list functions.  The source only
  ever feeds them strings for which `casefold` and `lower` agree with
  ASCII lowercasing, which is what `casefold` below implements.
* Python `set` values (genres, tags, ...) as lists; iteration order of a
  Python set is unspecified, the list order stands in for one such order.
  Only membership and emptiness matter to the claims.
* exceptions as `Except String`: the only statements inside
  `_convert_metadata_to_xml` that can raise on well-typed input are the
  `current_id.attrib['source']` lookup (KeyError) and the
  `md.data_origin.name` dereference (AttributeError) in the IDS block.
* the final `ET.indent(root)` call is omitted: it only inserts whitespace
  `text`/`tail` strings for pretty-printing and never removes or reorders
  elements, attributes, or non-whitespace text, so it is irrelevant to all
  structural/value properties below.

The synonym tables of `GenericMetadata` (`writer_synonyms`, ...,
`translator_synonyms`) live in the external `comicapi` dependency, which
the spec declares out of scope ("the generic metadata record's own
definition and synonym tables" are collaborators).  The converter is
therefore parameterised over a `RoleSynonyms` bundle, and a concrete
instance is modelled from the spec for witnesses.
-/

namespace Metron

/-! ## XML element trees -/

/-- A model of `xml.etree.ElementTree.Element`: tag name, attribute
dictionary (insertion-ordered association list), optional text, children. -/
inductive Element : Type where
  | mk : String → List (String × String) → Option String → List Element → Element

instance : Inhabited Element := ⟨Element.mk "" [] none []⟩

def Element.tag : Element → String
  | .mk t _ _ _ => t

def Element.attrib : Element → List (String × String)
  | .mk _ a _ _ => a

def Element.text : Element → Option String
  | .mk _ _ tx _ => tx

def Element.children : Element → List Element
  | .mk _ _ _ c => c

/-- `Element.clear()`: removes all subelements, clears all attributes and
sets text to `None`.  Only the tag survives. -/
def Element.clear : Element → Element
  | .mk t _ _ _ => .mk t [] none []

/-- Assignment `element.text = value`. -/
def Element.withText (tx : Option String) : Element → Element
  | .mk t a _ c => .mk t a tx c

/-- Replacing the child list of an element (in-place mutation of the
`children` of a Python element). -/
def Element.withChildren (cs : List Element) : Element → Element
  | .mk t a tx _ => .mk t a tx cs

/-- Dictionary write `d[k] = v`: overwrite the first binding of `k`,
otherwise append a new binding (Python dicts are insertion ordered). -/
def setKV (k v : String) : List (String × String) → List (String × String)
  | [] => [(k, v)]
  | (k', v') :: rest => if k' == k then (k, v) :: rest else (k', v') :: setKV k v rest

/-- Dictionary read `d.get(k)` / `d[k]` (the latter raises on `none`,
handled at each use site). -/
def Element.attribGet (e : Element) (k : String) : Option String :=
  (e.attrib.find? (fun p => p.1 == k)).map (fun p => p.2)

/-- Attribute assignment `element.attrib[k] = v`. -/
def Element.attribSet (e : Element) (k v : String) : Element :=
  match e with
  | .mk t a tx c => .mk t (setKV k v a) tx c

/-- `root.find(tag)` for a single-segment path: the first direct child
with the given tag. -/
def findC (t : String) : List Element → Option Element
  | [] => none
  | c :: cs => if c.tag == t then some c else findC t cs

def Element.findTag (e : Element) (t : String) : Option Element :=
  findC t e.children

/-! ## Python string primitives (ASCII model) -/

/-- Python `str.casefold()` / `str.lower()`.  For the ASCII data this
module handles the two agree and are plain lowercasing.  The source's
`s.lower().casefold()` composition therefore also equals `casefold s`. -/
def casefold (s : String) : String :=
  String.mk (s.data.map Char.toLower)

/-- Python `str.replace(' ', '_')` (single-character replacement). -/
def replaceSpaceUnderscore (s : String) : String :=
  String.mk (s.data.map (fun c => if c = ' ' then '_' else c))

/-- Python `str.capitalize()`: first character upper-cased, rest lowered. -/
def pyCapitalize (s : String) : String :=
  match s.data with
  | [] => ""
  | c :: cs => String.mk (c.toUpper :: cs.map Char.toLower)

/-- Python `str.startswith(p)`. -/
def pyStartsWith (p s : String) : Bool :=
  p.data.isPrefixOf s.data

/-- Whitespace recognised by Python `str.strip()` restricted to ASCII. -/
def isPySpace (c : Char) : Bool :=
  c == ' ' || c == '\t' || c == '\n' || c == '\r'

/-- Python `str.strip()`. -/
def pyStrip (s : String) : String :=
  String.mk (((s.data.dropWhile isPySpace).reverse.dropWhile isPySpace).reverse)

/-- Python `str.split(sep)` for a one-character separator. -/
def splitChar (sep : Char) (s : String) : List String :=
  (s.data.foldr
    (fun c acc =>
      match acc with
      | g :: gs => if c = sep then [] :: g :: gs else (c :: g) :: gs
      | [] => [[c]])
    [[]]).map String.mk

/-- Python `f'{n:0w}'` formatting of an integer: zero-pad to width `w`,
the minus sign counting towards the width. -/
def padZeros (w : Nat) (s : String) : String :=
  if s.length ≥ w then s else String.mk (List.replicate (w - s.length) '0') ++ s

def padInt (w : Nat) (n : Int) : String :=
  if n < 0 then "-" ++ padZeros (w - 1) (toString (-n)) else padZeros w (toString n)

/-- Truthiness of a Python `int | None` field: `None` and `0` are falsy. -/
def truthyInt : Option Int → Bool
  | none => false
  | some v => v != 0

/-- `x or 1` for a Python `int | None` value. -/
def pyOr1 : Option Int → Int
  | none => 1
  | some v => if v ≠ 0 then v else 1

/-- `add_element`'s text handling: `if text: new_element.text = str(text)`,
so empty text leaves the element without text. -/
def addElementText (s : String) : Option String :=
  if s = "" then none else some s

/-- Lookup with default in an insertion-ordered dict literal, `d.get(k, dflt)`. -/
def dictGet (d : List (String × String)) (k dflt : String) : String :=
  match d.find? (fun p => p.1 == k) with
  | some p => p.2
  | none => dflt

def dictFind (d : List (String × String)) (k : String) : Option String :=
  (d.find? (fun p => p.1 == k)).map (fun p => p.2)

/-! ## Metadata record -/

/-- One entry of `GenericMetadata.credits`. -/
structure CreditEntry where
  person : String
  role : String
deriving DecidableEq, Repr

/-- The slice of `GenericMetadata` read or written by the converter. -/
structure MD where
  series : String := ""
  series_id : Option String := none
  issue : String := ""
  issue_count : Option Int := none
  title : String := ""
  volume : Option Int := none
  volume_count : Option Int := none
  genres : List String := []
  description : String := ""
  notes : String := ""
  format : String := ""
  publisher : String := ""
  imprint : String := ""
  day : Option Int := none
  month : Option Int := none
  year : Option Int := none
  web_links : List String := []
  manga : Option String := none
  maturity_rating : String := ""
  tags : List String := []
  story_arcs : List String := []
  characters : List String := []
  teams : List String := []
  locations : List String := []
  credits : List CreditEntry := []
  data_origin : Option String := none
  price : String := ""
  issue_id : String := ""
  identifier : String := ""
  series_aliases : List String := []
deriving DecidableEq, Repr

/-! ## Module-level constants (verbatim from the source) -/

/-- `ADDITIONAL_CREDITS`, lines 33-64. -/
def ADDITIONAL_CREDITS : List String :=
  ["plot", "story", "interviewer", "illustrator", "layouts", "embellisher",
   "ink assists", "color separations", "color assists", "color flats",
   "digital art technician", "gray tone", "consulting editor",
   "assistant editor", "associate editor", "group editor", "senior editor",
   "managing editor", "collection editor", "production", "designer",
   "logo design", "supervising editor", "executive editor",
   "editor in chief", "president", "publisher", "chief creative officer",
   "executive producer", "other"]

/-- `METRON_SOURCE_NAME`, lines 66-76. -/
def METRON_SOURCE_NAME : List String :=
  ["AniList", "Comic Vine", "Grand Comics Database", "Kitsu", "MangaDex",
   "MangaUpdates", "Metron", "MyAnimeList", "League of Comic Geeks"]

/-- The synonym tables of `GenericMetadata` consumed by the converter.
They belong to the external `comicapi` collaborator (spec section 1
declares "the generic metadata record's own definition and synonym
tables" out of scope), so the development is parameterised over them. -/
structure RoleSynonyms where
  writer_synonyms : List String
  penciller_synonyms : List String
  inker_synonyms : List String
  colorist_synonyms : List String
  letterer_synonyms : List String
  cover_synonyms : List String
  editor_synonyms : List String
  translator_synonyms : List String

/-- Modelled from the spec: a concrete instance of the external synonym
tables ("known synonym sets for
Writer/Penciller/Inker/Colorist/Letterer/Cover/Editor/Translator",
spec section 4.2).  The tables are casefolded role names; each canonical
role name belongs to its own table, and the tables of distinct roles do
not contain one another's canonical names. -/
def specSynonyms : RoleSynonyms where
  writer_synonyms := ["writer", "plotter", "scripter", "script"]
  penciller_synonyms := ["artist", "penciller", "penciler", "breakdowns"]
  inker_synonyms := ["inker", "artist", "finishes"]
  colorist_synonyms := ["colorist", "colourist", "colorer", "colourer"]
  letterer_synonyms := ["letterer"]
  cover_synonyms := ["cover", "covers", "coverartist", "cover artist"]
  editor_synonyms := ["editor", "editing"]
  translator_synonyms := ["translator", "translation"]

/-- `_get_parseable_credits` (lines 180-192): the eight synonym tables
concatenated, then `ADDITIONAL_CREDITS`. -/
def getParseableCredits (tabs : RoleSynonyms) : List String :=
  tabs.writer_synonyms ++ tabs.penciller_synonyms ++ tabs.inker_synonyms ++
  tabs.colorist_synonyms ++ tabs.letterer_synonyms ++ tabs.cover_synonyms ++
  tabs.editor_synonyms ++ tabs.translator_synonyms ++ ADDITIONAL_CREDITS

/-- `supports_credit_role` (lines 125-126). -/
def supports_credit_role (tabs : RoleSynonyms) (role : String) : Bool :=
  (getParseableCredits tabs).contains (casefold role)

/-! ## Normalisation tables and rules -/

/-- `format_dict`, lines 377-381. -/
def format_dict : List (String × String) :=
  [("annual", "Annual"), ("digital chapter", "Digital Chapter"),
   ("graphic novel", "Graphic Novel"), ("hardcover", "Hardcover"),
   ("limited series", "Limited Series"), ("omnibus", "Omnibus"),
   ("trade paperback", "Trade Paperback"), ("oneshot", "One-Shot"),
   ("single issue", "Single Issue")]

/-- `format_tpb`, line 383. -/
def format_tpb : List String :=
  ["trade paperback", "collected edition", "tpb", "anthology", "trade paper back"]

/-- `format_one_shot`, line 384. -/
def format_one_shot : List String :=
  ["oneshot", "one-shot", "one shot", "1-shot", "1 shot", "1shot"]

/-- The format normalisation of lines 386-391: synonym collapse followed
by the table lookup with default `'Single Issue'`. -/
def normalizeFormat (f : String) : String :=
  let cf := casefold f
  let f1 := if cf ∈ format_tpb then "trade paperback"
            else if cf ∈ format_one_shot then "oneshot"
            else f
  dictGet format_dict (casefold f1) "Single Issue"

/-- `mature_dict`, lines 444-447. -/
def mature_dict : List (String × String) :=
  [("unknown", "Unknown"), ("everyone", "Everyone"), ("teen", "Teen"),
   ("teen plus", "Teen Plus"), ("mature", "Mature"),
   ("explicit", "Explicit"), ("adult", "Adult")]

/-- `mature_everyone`, line 450 (verbatim, including the upper-case
entries that a lowercased input can never equal). -/
def mature_everyone : List String := ["everyone", "G", "all", "all ages", "a", "t"]

/-- `mature_teen`, line 451. -/
def mature_teen : List String := ["teen", "teenager", "13+", "T+", "PG", "PSR"]

/-- `mature_teenplus`, line 452. -/
def mature_teenplus : List String :=
  ["teen plus", "teenager plus", "15+", "parental advisory", "PG+", "PSR+", "ma15+"]

/-- `mature_mature`, line 453. -/
def mature_mature : List String := ["mature", "17+", "explicit content", "m", "mature 17+"]

/-- `mature_explicit`, line 454. -/
def mature_explicit : List String := ["explicit", "R"]

/-- `mature_adult`, line 455. -/
def mature_adult : List String :=
  ["adult", "adults only", "adults only 18+", "18+", "R18+", "R+"]

/-- The maturity-rating normalisation of lines 457-470: six synonym
groups collapsed to a canonical token, then `mature_dict` lookup with
default `'Unknown'`. -/
def normalizeRating (r : String) : String :=
  let cf := casefold r
  let r1 := if cf ∈ mature_everyone then "everyone"
            else if cf ∈ mature_teen then "teen"
            else if cf ∈ mature_teenplus then "teen plus"
            else if cf ∈ mature_mature then "mature"
            else if cf ∈ mature_explicit then "explicit"
            else if cf ∈ mature_adult then "adult"
            else r
  dictGet mature_dict (casefold r1) "Unknown"

/-- The role classification of lines 337-354.  Note that the source
consults seven synonym tables (`translator_synonyms` is *not* among
them), then `ADDITIONAL_CREDITS` (pass-through), then falls back to
`'Other'`. -/
def classifyRole (tabs : RoleSynonyms) (role : String) : String :=
  if casefold role ∈ tabs.writer_synonyms then "Writer"
  else if casefold role ∈ tabs.penciller_synonyms then "Penciller"
  else if casefold role ∈ tabs.inker_synonyms then "Inker"
  else if casefold role ∈ tabs.colorist_synonyms then "Colorist"
  else if casefold role ∈ tabs.letterer_synonyms then "Letterer"
  else if casefold role ∈ tabs.cover_synonyms then "Cover"
  else if casefold role ∈ tabs.editor_synonyms then "Editor"
  else if casefold role ∈ ADDITIONAL_CREDITS then role
  else "Other"

/-! ## The creators dictionary (lines 331-356) -/

/-- The fold key of a credit person: `credit.person.replace(' ', '_').casefold()`. -/
def pyKey (person : String) : String :=
  casefold (replaceSpaceUnderscore person)

/-- `creators.setdefault(key, (person, []))[1].append(role)` on the
insertion-ordered dict modelled as a list of
`(key, (first person seen, roles))`. -/
def addRoleEntry (key person role : String) :
    List (String × String × List String) → List (String × String × List String)
  | [] => [(key, person, [role])]
  | (k, p, rs) :: rest =>
    if k == key then (k, p, rs ++ [role]) :: rest
    else (k, p, rs) :: addRoleEntry key person role rest

/-- One iteration of the loop of lines 333-356. -/
def creatorStep (tabs : RoleSynonyms) (acc : List (String × String × List String))
    (c : CreditEntry) : List (String × String × List String) :=
  addRoleEntry (pyKey c.person) c.person (classifyRole tabs c.role) acc

/-- The loop of lines 333-356 building the creators dict. -/
def buildCreators (tabs : RoleSynonyms) (credits : List CreditEntry) :
    List (String × String × List String) :=
  credits.foldl (creatorStep tabs) []

/-- `add_credit` (lines 283-294): one `Credit` element, with a `Creator`
child and, when roles are present, a `Roles` child with one `Role` per
role. -/
def creditElem (person : String) (roles : List String) : Element :=
  .mk "Credit" [] none
    ([Element.mk "Creator" [] (addElementText person) []] ++
      (if roles.length > 0 then
        [Element.mk "Roles" [] none
          (roles.map (fun r => Element.mk "Role" [] (some r) []))]
      else []))

/-- Lines 358-362: `Credit` children of the cleared `Credits` element;
creators with an empty name are skipped (`if creator:`). -/
def creditsChildren (groups : List (String × String × List String)) : List Element :=
  groups.filterMap (fun g => if g.2.1 = "" then none else some (creditElem g.2.1 g.2.2))

/-! ## Per-element sections of `_convert_metadata_to_xml` -/

/-- Lines 358-362. -/
def creditsSection (tabs : RoleSynonyms) (md : MD) (e : Element) : Element :=
  .mk e.tag [] none (creditsChildren (buildCreators tabs md.credits))

/-- Lines 403-407. -/
def altNamesElem (aliases : List String) : Element :=
  .mk "AlternativeNames" [] none
    (aliases.map (fun a => Element.mk "AlternativeName" [] (addElementText a) []))

/-- Lines 364-407: `metron_series.clear()` and repopulation, all guarded
by `if md.series:` (an empty series leaves the cleared element). -/
def seriesSection (md : MD) (e : Element) : Element :=
  Element.mk e.tag
    (if md.series ≠ "" then
      (match md.series_id with
        | some v => [("id", v)]
        | none => [])
    else [])
    none
    (if md.series ≠ "" then
      [Element.mk "Name" [] (addElementText md.series) []] ++
        (if truthyInt md.volume then
          [Element.mk "Volume" [] (addElementText (toString (md.volume.getD 0))) []]
        else []) ++
        (if md.format ≠ "" then
          [Element.mk "Format" [] (addElementText (normalizeFormat md.format)) []]
        else []) ++
        (if truthyInt md.issue_count then
          [Element.mk "IssueCount" [] (addElementText (toString (md.issue_count.getD 0))) []]
        else []) ++
        (if truthyInt md.volume_count then
          [Element.mk "VolumeCount" [] (addElementText (toString (md.volume_count.getD 0))) []]
        else []) ++
        (if md.series_aliases ≠ [] then [altNamesElem md.series_aliases] else [])
    else [])

/-- The value `md.format` holds after the series block: lines 386-391 run
only under `if md.series:` and `if md.format:`. -/
def normFormat (md : MD) : String :=
  if md.series ≠ "" ∧ md.format ≠ "" then normalizeFormat md.format else md.format

/-- Lines 409-411. -/
def numberSection (md : MD) (e : Element) : Element :=
  .mk e.tag [] (if md.issue ≠ "" then some md.issue else none) []

/-- Lines 413-423, the `Stories` half: when the (already normalised)
format is not `'Trade Paperback'`, the title is split on `';'` and each
stripped segment becomes a `Story`. -/
def storiesSection (md : MD) (fmt : String) (e : Element) : Element :=
  .mk e.tag [] none
    (if md.title ≠ "" ∧ fmt ≠ "Trade Paperback" then
      (splitChar ';' md.title).map
        (fun t => Element.mk "Story" [] (addElementText (pyStrip t)) [])
    else [])

/-- Lines 413-423, the `CollectionTitle` half. -/
def titleSection (md : MD) (fmt : String) (e : Element) : Element :=
  .mk e.tag []
    (if md.title ≠ "" ∧ fmt = "Trade Paperback" then some md.title else none) []

/-- `s.add(x)` on a Python set modelled as a list. -/
def setAdd (l : List String) (x : String) : List String :=
  if x ∈ l then l else l ++ [x]

/-- Lines 425-426: the manga flag inserts the literal genre `'Manga'`. -/
def genresAfterManga (md : MD) : List String :=
  if (match md.manga with
      | some m => pyStartsWith "yes" (casefold m)
      | none => false) then
    setAdd md.genres "Manga"
  else md.genres

/-- Lines 428-430. -/
def genresSection (genres : List String) (e : Element) : Element :=
  .mk e.tag [] none
    (genres.map (fun g => Element.mk "Genre" [] (addElementText (pyCapitalize g)) []))

/-- Lines 432-434. -/
def summarySection (md : MD) (e : Element) : Element :=
  .mk e.tag [] (if md.description ≠ "" then some md.description else none) []

/-- Lines 436-439. -/
def urlsSection (md : MD) (e : Element) : Element :=
  .mk e.tag [] none
    (if md.web_links ≠ [] then
      md.web_links.map (fun w => Element.mk "URL" [] (addElementText w) [])
    else [])

/-- The value `md.maturity_rating` holds after lines 441-472. -/
def normRating (md : MD) : String :=
  if md.maturity_rating ≠ "" then normalizeRating md.maturity_rating else md.maturity_rating

/-- Lines 441-472. -/
def ageRatingSection (md : MD) (e : Element) : Element :=
  .mk e.tag []
    (if md.maturity_rating ≠ "" then some (normalizeRating md.maturity_rating) else none) []

/-- Lines 474-477. -/
def tagsSection (md : MD) (e : Element) : Element :=
  .mk e.tag [] none
    (if md.tags ≠ [] then
      md.tags.map (fun t => Element.mk "Tag" [] (addElementText t) [])
    else [])

/-- Lines 479-482. -/
def charactersSection (md : MD) (e : Element) : Element :=
  .mk e.tag [] none
    (if md.characters ≠ [] then
      md.characters.map (fun c => Element.mk "Character" [] (addElementText c) [])
    else [])

/-- Lines 484-487. -/
def teamsSection (md : MD) (e : Element) : Element :=
  .mk e.tag [] none
    (if md.teams ≠ [] then
      md.teams.map (fun t => Element.mk "Team" [] (addElementText t) [])
    else [])

/-- Lines 489-492. -/
def locationsSection (md : MD) (e : Element) : Element :=
  .mk e.tag [] none
    (if md.locations ≠ [] then
      md.locations.map (fun l => Element.mk "Location" [] (addElementText l) [])
    else [])

/-- Lines 494-498. -/
def arcsSection (md : MD) (e : Element) : Element :=
  .mk e.tag [] none
    (if md.story_arcs ≠ [] then
      md.story_arcs.map
        (fun a => Element.mk "Arc" [] none [Element.mk "Name" [] (addElementText a) []])
    else [])

/-- The loop of lines 503-511 over the children of `metron_ids`:
`current_id.attrib['source']` raises KeyError when the attribute is
missing, `md.data_origin.name` raises AttributeError when `data_origin`
is the null sentinel; on the first match the text is overwritten and
`primary` set, the loop `break`s; if no child matches, a new `ID` is
appended. -/
def idsLoop (issueId : String) (origin : Option String) :
    List Element → Except String (List Element)
  | [] =>
    match origin with
    | none => .error "AttributeError: NoneType object has no attribute name"
    | some nm =>
      .ok [Element.mk "ID" [("source", nm), ("primary", "true")]
            (addElementText issueId) []]
  | c :: cs =>
    match c.attribGet "source" with
    | none => .error "KeyError: source"
    | some src =>
      match origin with
      | none => .error "AttributeError: NoneType object has no attribute name"
      | some nm =>
        if src = nm then
          .ok (((c.withText (some issueId)).attribSet "primary" "true") :: cs)
        else
          (idsLoop issueId origin cs).map (fun rest => c :: rest)

/-- Lines 500-511: the `IDS` element is *not* cleared ("Will preserve IDs
of sources"); the upsert only runs when `md.issue_id` is truthy. -/
def idsSection (md : MD) (e : Element) : Except String Element :=
  if md.issue_id ≠ "" then
    (idsLoop md.issue_id md.data_origin e.children).map (fun cs => e.withChildren cs)
  else .ok e

/-- Lines 513-517. -/
def publisherSection (md : MD) (e : Element) : Element :=
  .mk e.tag [] none
    (if md.publisher ≠ "" then
      [Element.mk "Name" [] (addElementText md.publisher) []] ++
        (if md.imprint ≠ "" then
          [Element.mk "Imprint" [] (addElementText md.imprint) []]
        else [])
    else [])

/-- Lines 519-522. -/
def gtinSection (md : MD) (e : Element) : Element :=
  .mk e.tag [] none
    (if md.identifier ≠ "" then
      [Element.mk "ISBN" [] (addElementText md.identifier) []]
    else [])

/-- The two-digit-year heuristic of lines 529-533. -/
def adjustYear (y : Int) : Int :=
  if y < 50 then 2000 + y else if y < 100 then 1900 + y else y

/-- `f'{year:04}-{month:02}-{day:02}'` with `day = md.day or 1`,
`month = md.month or 1` (lines 526-535). -/
def pubDateString (md : MD) : String :=
  padInt 4 (adjustYear (md.year.getD 0)) ++ "-" ++
  padInt 2 (pyOr1 md.month) ++ "-" ++ padInt 2 (pyOr1 md.day)

/-- Lines 524-536; the guard is `if md.year:` (truthiness). -/
def coverDateSection (md : MD) (e : Element) : Element :=
  .mk e.tag [] (if truthyInt md.year then some (pubDateString md) else none) []

/-- Lines 538-540. -/
def notesSection (md : MD) (e : Element) : Element :=
  .mk e.tag [] (if md.notes ≠ "" then some md.notes else none) []

/-- Lines 542-545. -/
def pricesSection (md : MD) (e : Element) : Element :=
  .mk e.tag [] none
    (if md.price ≠ "" then
      [Element.mk "Price" [("country", "US")] (addElementText md.price) []]
    else [])

/-- Line 547: only the text is overwritten, children and attributes of a
pre-existing `LastModified` element survive. -/
def lastModifiedSection (now : String) (e : Element) : Element :=
  e.withText (some now)

/-! ## Assembling the converter -/

/-- The 21 `get_or_create_element` calls of lines 307-329, in source order. -/
def topTags : List String :=
  ["IDS", "Number", "Series", "Stories", "CollectionTitle", "Summary",
   "Notes", "Prices", "GTIN", "Genres", "AgeRating", "Tags", "Arcs",
   "Characters", "Teams", "Locations", "Publisher", "CoverDate", "URLs",
   "Credits", "LastModified"]

/-- `get_or_create_element` for a single-segment path: if `root.find(tag)`
is `None`, `add_path` appends a fresh child with that tag. -/
def ensureChild (cs : List Element) (t : String) : List Element :=
  if (findC t cs).isSome then cs else cs ++ [Element.mk t [] none []]

/-- In-place mutation of the element handle returned by `root.find(t)`:
the first child with tag `t` is replaced by `f` applied to it. -/
def updateFirst (t : String) (f : Element → Element) : List Element → List Element
  | [] => []
  | c :: cs => if c.tag == t then f c :: cs else c :: updateFirst t f cs

/-- `updateFirst` for a section that can raise. -/
def updateFirstE (t : String) (f : Element → Except String Element) :
    List Element → Except String (List Element)
  | [] => .ok []
  | c :: cs =>
    if c.tag == t then (f c).map (fun c' => c' :: cs)
    else (updateFirstE t f cs).map (fun cs' => c :: cs')

/-- A section applied to its top-level element. -/
def applySteps : List (String × (Element → Element)) → List Element → List Element
  | [], cs => cs
  | (t, f) :: steps, cs => applySteps steps (updateFirst t f cs)

/-- The sections executed before the IDS upsert, in source order
(lines 358-498).  `fmt` and `genres` are the values `md.format` and
`md.genres` hold at the respective use sites (the series block mutates
`md.format` before the title block reads it; the manga block mutates
`md.genres` before the genre block reads it). -/
def preSteps (tabs : RoleSynonyms) (md : MD) (fmt : String) (genres : List String) :
    List (String × (Element → Element)) :=
  [("Credits", creditsSection tabs md),
   ("Series", seriesSection md),
   ("Number", numberSection md),
   ("Stories", storiesSection md fmt),
   ("CollectionTitle", titleSection md fmt),
   ("Genres", genresSection genres),
   ("Summary", summarySection md),
   ("URLs", urlsSection md),
   ("AgeRating", ageRatingSection md),
   ("Tags", tagsSection md),
   ("Characters", charactersSection md),
   ("Teams", teamsSection md),
   ("Locations", locationsSection md),
   ("Arcs", arcsSection md)]

/-- The sections executed after the IDS upsert (lines 513-547). -/
def postSteps (md : MD) (now : String) : List (String × (Element → Element)) :=
  [("Publisher", publisherSection md),
   ("GTIN", gtinSection md),
   ("CoverDate", coverDateSection md),
   ("Notes", notesSection md),
   ("Prices", pricesSection md),
   ("LastModified", lastModifiedSection now)]

/-- The fresh root of lines 303-305. -/
def freshRoot : Element :=
  .mk "MetronInfo"
    [("xmlns:xsi", "http://www.w3.org/2001/XMLSchema-instance"),
     ("xsi:noNamespaceSchemaLocation", "MetronInfo.xsd")]
    none []

/-- `_convert_metadata_to_xml` (lines 202-557).  `rootOpt` is the parsed
existing document (`none` for empty bytes); `now` stands for
`datetime.datetime.now().isoformat()`.  The returned `MD` is the state of
the (mutated in place) metadata argument after the call: the source
reassigns `md.format` (line 391), `md.maturity_rating` (line 470) and
adds to `md.genres` (line 426).  Those values are computed here before
the element pipeline, which is sound because they depend only on `md`. -/
def convert (tabs : RoleSynonyms) (md : MD) (rootOpt : Option Element) (now : String) :
    Except String (Element × MD) :=
  match updateFirstE "IDS" (idsSection md)
      (applySteps (preSteps tabs md (normFormat md) (genresAfterManga md))
        (topTags.foldl ensureChild (rootOpt.getD freshRoot).children)) with
  | .error e => .error e
  | .ok cs2 =>
    .ok ((rootOpt.getD freshRoot).withChildren (applySteps (postSteps md now) cs2),
         { md with format := normFormat md, genres := genresAfterManga md,
                   maturity_rating := normRating md })

/-! ## Adapter layer (`has_tags`, `write_tags`, `_validate_bytes`) -/

/-- Bytes handed to `ET.fromstring`: either they fail to parse or they
yield a document root. -/
inductive ParsedBytes : Type where
  | malformed
  | wellFormed (root : Element)

/-- The archive collaborator.  Each operation may raise (`Except Unit`). -/
structure ArchiveModel where
  supports_files : Except Unit Bool
  get_filename_list : Except Unit (List String)
  read_file : String → Except Unit ParsedBytes
  write_file : String → Element → Except Unit Bool

/-- `self.file`, line 87. -/
def metronFile : String := "MetronInfo.xml"

/-- `_validate_bytes` (lines 719-728): parse failure or a root tag other
than `MetronInfo` yields `False`. -/
def validateBytes : ParsedBytes → Bool
  | .malformed => false
  | .wellFormed r => r.tag == "MetronInfo"

/-- `supports_tags` (lines 128-129). -/
def supports_tags (a : ArchiveModel) : Except Unit Bool :=
  a.supports_files

/-- `has_tags` (lines 131-139): the short-circuit conjunction inside a
`try`; any exception is swallowed and yields `False`.  By construction
this is a total `Bool`-valued function - the model of "never raises". -/
def has_tags (a : ArchiveModel) : Bool :=
  let attempt : Except Unit Bool := do
    let sup ← supports_tags a
    if sup then do
      let names ← a.get_filename_list
      if metronFile ∈ names then do
        let b ← a.read_file metronFile
        pure (validateBytes b)
      else pure false
    else pure false
  match attempt with
  | .ok v => v
  | .error _ => false

/-- `_bytes_from_metadata` (lines 198-200): parse of the `xml` argument
(`if xml:` distinguishes empty bytes), then the converter.  The produced
"bytes" are represented by the document root itself. -/
def bytesFromMetadata (tabs : RoleSynonyms) (md : MD) (now : String)
    (xml : Option ParsedBytes) : Except String Element :=
  match xml with
  | none => (convert tabs md none now).map Prod.fst
  | some .malformed => .error "ParseError"
  | some (.wellFormed r) => (convert tabs md (some r) now).map Prod.fst

/-- `write_tags` (lines 164-175).  `supports_tags` is called outside the
`try`, so its exception propagates (hence the outer `Except`); inside
the `try`, any exception - archive I/O or the converter's own - is
logged and turned into a `False` return. -/
def write_tags (tabs : RoleSynonyms) (md : MD) (now : String) (a : ArchiveModel) :
    Except Unit Bool :=
  match supports_tags a with
  | .error err => .error err
  | .ok false => .ok false
  | .ok true =>
    let body : Except Unit Bool := do
      let xml ← if has_tags a then do
          let b ← a.read_file metronFile
          pure (some b)
        else pure none
      match bytesFromMetadata tabs md now xml with
      | .error _ => .error ()
      | .ok doc => a.write_file metronFile doc
    match body with
    | .ok b => .ok b
    | .error _ => .ok false

/-! ## Derived observation helpers and concrete fixtures -/

/-- The `ID` children (in source order, any tag) whose `source` attribute
equals `nm`. -/
def countSource (nm : String) (cs : List Element) : Nat :=
  (cs.filter (fun c => c.attribGet "source" == some nm)).length

/-- The first child whose `source` attribute equals `nm`. -/
def firstSource (nm : String) (cs : List Element) : Option Element :=
  cs.find? (fun c => c.attribGet "source" == some nm)

/-- An existing document whose `IDS` element already carries an `ID`. -/
def c3doc : Element :=
  .mk "MetronInfo" [] none
    [.mk "IDS" [] none [.mk "ID" [("source", "Metron")] (some "42") []]]

def c3md : MD := { series := "Gotham", issue := "2" }

def c3res : Element × MD :=
  (convert specSynonyms c3md (some c3doc) "T3").toOption.getD (default, c3md)

def c5md : MD := { year := some 5 }

def c5res : Element × MD :=
  (convert specSynonyms c5md none "T5").toOption.getD (default, c5md)

def c8md : MD := { issue_id := "123", data_origin := some "Metron" }

def c8ids : Element :=
  .mk "IDS" [] none [.mk "ID" [("source", "Metron")] (some "old") []]

def c9md : MD :=
  { series := "S", format := "TPB", maturity_rating := "Mature",
    manga := some "Yes", genres := ["action"] }

def c9res : Element × MD :=
  (convert specSynonyms c9md none "T9").toOption.getD (default, c9md)

def c10md : MD := { issue_id := "99", data_origin := some "Metron" }

/-- An `IDS` element whose sourceless `ID` child sits *after* the child
matching the data origin. -/
def c10ids : Element :=
  .mk "IDS" [] none
    [.mk "ID" [("source", "Metron")] (some "1") [],
     .mk "ID" [] (some "2") []]

def c7doc : Element := .mk "MetronInfo" [] none []

def c7archive : ArchiveModel :=
  { supports_files := .ok true,
    get_filename_list := .ok ["MetronInfo.xml"],
    read_file := fun _ => .ok (.wellFormed c7doc),
    write_file := fun _ _ => .ok true }

/-! ## Generic lemmas about the document pipeline -/

/-- Whether an `Except` computation succeeded (Python: no exception). -/
def exceptIsOk {ε α : Type} : Except ε α → Bool
  | .ok _ => true
  | .error _ => false

theorem exceptIsOk_map {ε α β : Type} (f : α → β) (x : Except ε α) :
    exceptIsOk (x.map f) = exceptIsOk x := by
  cases x <;> rfl

theorem findC_some_tag {t : String} {cs : List Element} {e : Element}
    (h : findC t cs = some e) : e.tag = t := by
  induction cs with
  | nil => simp [findC] at h
  | cons c cs ih =>
    simp only [findC] at h
    split at h
    next hb => cases Option.some.inj h; exact eq_of_beq hb
    next => exact ih h

theorem findC_append_left {t : String} {l1 : List Element} {e : Element}
    (l2 : List Element) (h : findC t l1 = some e) : findC t (l1 ++ l2) = some e := by
  induction l1 with
  | nil => simp [findC] at h
  | cons c cs ih =>
    by_cases hb : (c.tag == t) = true
    · simp only [findC, hb, if_true] at h ⊢; exact h
    · simp only [findC, hb] at h ⊢
      simp only [List.cons_append, findC, hb, if_false, Bool.false_eq_true]
      exact ih h

theorem findC_append_none {t : String} {l1 : List Element}
    (l2 : List Element) (h : findC t l1 = none) : findC t (l1 ++ l2) = findC t l2 := by
  induction l1 with
  | nil => rfl
  | cons c cs ih =>
    by_cases hb : (c.tag == t) = true
    · simp [findC, hb] at h
    · simp only [findC, hb, Bool.false_eq_true, if_false] at h
      simp only [List.cons_append, findC, hb, Bool.false_eq_true, if_false]
      exact ih h

theorem findC_exists_of_isSome {t : String} {cs : List Element}
    (h : (findC t cs).isSome) : ∃ e, findC t cs = some e ∧ e.tag = t := by
  obtain ⟨e, he⟩ := Option.isSome_iff_exists.mp h
  exact ⟨e, he, findC_some_tag he⟩

theorem findC_ensureChild_self (t : String) (cs : List Element) :
    (findC t (ensureChild cs t)).isSome := by
  unfold ensureChild
  split
  next h => exact h
  next h =>
    have hn : findC t cs = none := by
      cases hf : findC t cs with
      | none => rfl
      | some e => rw [hf] at h; simp at h
    rw [findC_append_none _ hn]
    simp [findC, Element.tag]

theorem findC_ensureChild_preserve {t : String} {cs : List Element}
    (h : (findC t cs).isSome) (u : String) : findC t (ensureChild cs u) = findC t cs := by
  unfold ensureChild
  split
  · rfl
  · obtain ⟨e, he⟩ := Option.isSome_iff_exists.mp h
    rw [findC_append_left _ he, he]

theorem findC_foldl_ensure_preserve {t : String} (l : List String) :
    ∀ cs : List Element, (findC t cs).isSome →
      findC t (l.foldl ensureChild cs) = findC t cs := by
  induction l with
  | nil => intro cs _; rfl
  | cons u l ih =>
    intro cs h
    rw [List.foldl_cons]
    rw [ih _ (by rw [findC_ensureChild_preserve h u]; exact h)]
    exact findC_ensureChild_preserve h u

theorem findC_foldl_ensure_mem {t : String} (l : List String) (ht : t ∈ l) :
    ∀ cs : List Element, (findC t (l.foldl ensureChild cs)).isSome := by
  induction l with
  | nil => cases ht
  | cons u l ih =>
    intro cs
    rw [List.foldl_cons]
    rcases List.mem_cons.mp ht with rfl | hmem
    · have h0 := findC_ensureChild_self t cs
      rw [findC_foldl_ensure_preserve l _ h0]
      exact h0
    · exact ih hmem _

theorem findC_updateFirst_self {t : String} {f : Element → Element}
    (hpres : ∀ e, (f e).tag = e.tag) (cs : List Element) :
    findC t (updateFirst t f cs) = (findC t cs).map f := by
  induction cs with
  | nil => rfl
  | cons c cs ih =>
    by_cases hb : (c.tag == t) = true
    · simp [updateFirst, findC, hb, hpres c]
    · simp [updateFirst, findC, hb, ih]

theorem findC_updateFirst_ne {t u : String} {f : Element → Element}
    (hpres : ∀ e, (f e).tag = e.tag) (hne : t ≠ u) (cs : List Element) :
    findC t (updateFirst u f cs) = findC t cs := by
  induction cs with
  | nil => rfl
  | cons c cs ih =>
    by_cases hb : (c.tag == u) = true
    · have hcu : c.tag = u := eq_of_beq hb
      have h1 : ((f c).tag == t) = false := by
        rw [hpres c, hcu]; exact beq_eq_false_iff_ne.mpr (Ne.symm hne)
      have h2 : (c.tag == t) = false := by
        rw [hcu]; exact beq_eq_false_iff_ne.mpr (Ne.symm hne)
      simp [updateFirst, findC, hb, h1, h2]
    · by_cases hbt : (c.tag == t) = true <;> simp [updateFirst, findC, hb, hbt, ih]

theorem findC_applySteps_none {t : String} (steps : List (String × (Element → Element)))
    (hpres : ∀ p ∈ steps, ∀ e, (p.2 e).tag = e.tag)
    (hfind : steps.find? (fun p => p.1 == t) = none) :
    ∀ cs : List Element, findC t (applySteps steps cs) = findC t cs := by
  induction steps with
  | nil => intro cs; rfl
  | cons p steps ih =>
    obtain ⟨u, f⟩ := p
    intro cs
    have hb : (u == t) = false := by
      have := List.find?_eq_none.mp hfind (u, f) (List.mem_cons_self _ _)
      simpa using this
    have htail : steps.find? (fun p => p.1 == t) = none := by
      apply List.find?_eq_none.mpr
      intro x hx
      exact List.find?_eq_none.mp hfind x (List.mem_cons_of_mem _ hx)
    rw [applySteps, ih (fun q hq => hpres q (List.mem_cons_of_mem _ hq)) htail]
    exact findC_updateFirst_ne (hpres (u, f) (List.mem_cons_self _ _))
      (Ne.symm (ne_of_beq_false hb)) cs

theorem findC_applySteps_found {t : String} (steps : List (String × (Element → Element)))
    (g : Element → Element)
    (hpres : ∀ p ∈ steps, ∀ e, (p.2 e).tag = e.tag)
    (hnd : (steps.map Prod.fst).Nodup)
    (hfind : steps.find? (fun p => p.1 == t) = some (t, g)) :
    ∀ cs : List Element, findC t (applySteps steps cs) = (findC t cs).map g := by
  induction steps with
  | nil => simp at hfind
  | cons p steps ih =>
    obtain ⟨u, f⟩ := p
    intro cs
    by_cases hb : (u == t) = true
    · have hu : u = t := eq_of_beq hb
      subst hu
      rw [List.find?_cons_of_pos _ (by simp)] at hfind
      obtain ⟨-, hg⟩ := Prod.mk.injEq .. ▸ Option.some.inj hfind
      subst hg
      have hnone : steps.find? (fun p => p.1 == u) = none := by
        apply List.find?_eq_none.mpr
        intro x hx
        have hmem : x.1 ∈ steps.map Prod.fst := List.mem_map_of_mem _ hx
        have hne : x.1 ≠ u := fun hEq => (List.nodup_cons.mp hnd).1 (hEq ▸ hmem)
        simpa using hne
      rw [applySteps,
        findC_applySteps_none steps (fun q hq => hpres q (List.mem_cons_of_mem _ hq)) hnone,
        findC_updateFirst_self (hpres (u, f) (List.mem_cons_self _ _)) cs]
    · rw [List.find?_cons_of_neg _ (by simpa using hb)] at hfind
      rw [applySteps,
        ih (fun q hq => hpres q (List.mem_cons_of_mem _ hq)) (List.nodup_cons.mp hnd).2 hfind
          (updateFirst u f cs),
        findC_updateFirst_ne (hpres (u, f) (List.mem_cons_self _ _))
          (Ne.symm (ne_of_beq_false (by simpa using hb))) cs]

theorem updateFirstE_ok_ne {t u : String} {f : Element → Except String Element}
    (hpres : ∀ e e', f e = .ok e' → e'.tag = e.tag) (hne : t ≠ u) :
    ∀ {cs cs' : List Element}, updateFirstE u f cs = .ok cs' → findC t cs' = findC t cs := by
  intro cs
  induction cs with
  | nil =>
    intro cs' h
    simp only [updateFirstE] at h
    cases Except.ok.inj h
    rfl
  | cons c cs ih =>
    intro cs' h
    simp only [updateFirstE] at h
    split at h
    next hb =>
      cases hf : f c with
      | error err => rw [hf] at h; simp [Except.map] at h
      | ok c' =>
        rw [hf] at h
        simp only [Except.map] at h
        cases Except.ok.inj h
        have hcu : c.tag = u := eq_of_beq hb
        have h1 : (c'.tag == t) = false := by
          rw [hpres c c' hf, hcu]; exact beq_eq_false_iff_ne.mpr (Ne.symm hne)
        have h2 : (c.tag == t) = false := by
          rw [hcu]; exact beq_eq_false_iff_ne.mpr (Ne.symm hne)
        simp [findC, h1, h2]
    next hb =>
      cases hrec : updateFirstE u f cs with
      | error err => rw [hrec] at h; simp [Except.map] at h
      | ok cs'' =>
        rw [hrec] at h
        simp only [Except.map] at h
        cases Except.ok.inj h
        by_cases hbt : (c.tag == t) = true <;> simp [findC, hbt, ih hrec]

theorem updateFirstE_ok_isSome {u : String} {f : Element → Except String Element}
    (hpres : ∀ e e', f e = .ok e' → e'.tag = e.tag) :
    ∀ {cs cs' : List Element}, updateFirstE u f cs = .ok cs' →
      (findC u cs).isSome → (findC u cs').isSome := by
  intro cs
  induction cs with
  | nil => intro cs' h _; simp [findC] at *
  | cons c cs ih =>
    intro cs' h hs
    simp only [updateFirstE] at h
    split at h
    next hb =>
      cases hf : f c with
      | error err => rw [hf] at h; simp [Except.map] at h
      | ok c' =>
        rw [hf] at h
        simp only [Except.map] at h
        cases Except.ok.inj h
        have : (c'.tag == u) = true := by
          rw [hpres c c' hf]; exact hb
        simp [findC, this]
    next hb =>
      cases hrec : updateFirstE u f cs with
      | error err => rw [hrec] at h; simp [Except.map] at h
      | ok cs'' =>
        rw [hrec] at h
        simp only [Except.map] at h
        cases Except.ok.inj h
        simp only [findC, hb, Bool.false_eq_true, if_false] at hs ⊢
        exact ih hrec hs

theorem updateFirstE_error_at {u : String} {f : Element → Except String Element}
    {cs : List Element} {e : Element}
    (hfind : findC u cs = some e) (hfail : exceptIsOk (f e) = false) :
    exceptIsOk (updateFirstE u f cs) = false := by
  induction cs with
  | nil => simp [findC] at hfind
  | cons c cs ih =>
    simp only [findC] at hfind
    simp only [updateFirstE]
    split at hfind
    next hb =>
      cases Option.some.inj hfind
      rw [if_pos hb]
      cases hf : f e with
      | error err => simp [Except.map, exceptIsOk]
      | ok c' => rw [hf] at hfail; simp [exceptIsOk] at hfail
    next hb =>
      rw [if_neg (by simp [hb])]
      rw [exceptIsOk_map]
      exact ih hfind


theorem findTag_withChildren (e : Element) (cs : List Element) (t : String) :
    (e.withChildren cs).findTag t = findC t cs := by
  obtain ⟨tg, a, tx, c⟩ := e
  rfl

theorem preSteps_pres (tabs : RoleSynonyms) (md : MD) (fmt : String) (genres : List String) :
    ∀ p ∈ preSteps tabs md fmt genres, ∀ e, (p.2 e).tag = e.tag := by
  intro p hp
  simp only [preSteps] at hp
  fin_cases hp <;> (intro e; obtain ⟨tg, a, tx, c⟩ := e; rfl)

theorem postSteps_pres (md : MD) (now : String) :
    ∀ p ∈ postSteps md now, ∀ e, (p.2 e).tag = e.tag := by
  intro p hp
  simp only [postSteps] at hp
  fin_cases hp <;> (intro e; obtain ⟨tg, a, tx, c⟩ := e; rfl)

theorem idsSection_pres (md : MD) : ∀ e e', idsSection md e = .ok e' → e'.tag = e.tag := by
  intro e e' h
  unfold idsSection at h
  split at h
  · cases hl : idsLoop md.issue_id md.data_origin e.children with
    | error err => rw [hl] at h; simp [Except.map] at h
    | ok cs =>
      rw [hl] at h
      simp only [Except.map] at h
      cases Except.ok.inj h
      obtain ⟨tg, a, tx, c⟩ := e
      rfl
  · cases Except.ok.inj h; rfl

theorem convert_ok_inv {tabs : RoleSynonyms} {md : MD} {rootOpt : Option Element}
    {now : String} {r : Element} {md' : MD}
    (h : convert tabs md rootOpt now = .ok (r, md')) :
    ∃ cs2, updateFirstE "IDS" (idsSection md)
        (applySteps (preSteps tabs md (normFormat md) (genresAfterManga md))
          (topTags.foldl ensureChild (rootOpt.getD freshRoot).children)) = .ok cs2 ∧
      r = (rootOpt.getD freshRoot).withChildren (applySteps (postSteps md now) cs2) ∧
      md' = { md with format := normFormat md, genres := genresAfterManga md,
                      maturity_rating := normRating md } := by
  unfold convert at h
  split at h
  next hE => simp at h
  next cs2 hE =>
    cases Except.ok.inj h
    exact ⟨cs2, hE, rfl, rfl⟩

/-- Full characterisation of the top-level children of an encoded
document: every cleared section's element equals that section rebuilt
from an empty element (so it is independent of the input document), the
`IDS` element exists, and `LastModified` carries the timestamp. -/
theorem convert_findTag {tabs : RoleSynonyms} {md : MD} {rootOpt : Option Element}
    {now : String} {r : Element} {md' : MD}
    (h : convert tabs md rootOpt now = .ok (r, md')) :
    r.findTag "Credits" = some (creditsSection tabs md (.mk "Credits" [] none [])) ∧
    r.findTag "Series" = some (seriesSection md (.mk "Series" [] none [])) ∧
    r.findTag "Number" = some (numberSection md (.mk "Number" [] none [])) ∧
    r.findTag "Stories" = some (storiesSection md (normFormat md) (.mk "Stories" [] none [])) ∧
    r.findTag "CollectionTitle" = some (titleSection md (normFormat md) (.mk "CollectionTitle" [] none [])) ∧
    r.findTag "Genres" = some (genresSection (genresAfterManga md) (.mk "Genres" [] none [])) ∧
    r.findTag "Summary" = some (summarySection md (.mk "Summary" [] none [])) ∧
    r.findTag "URLs" = some (urlsSection md (.mk "URLs" [] none [])) ∧
    r.findTag "AgeRating" = some (ageRatingSection md (.mk "AgeRating" [] none [])) ∧
    r.findTag "Tags" = some (tagsSection md (.mk "Tags" [] none [])) ∧
    r.findTag "Characters" = some (charactersSection md (.mk "Characters" [] none [])) ∧
    r.findTag "Teams" = some (teamsSection md (.mk "Teams" [] none [])) ∧
    r.findTag "Locations" = some (locationsSection md (.mk "Locations" [] none [])) ∧
    r.findTag "Arcs" = some (arcsSection md (.mk "Arcs" [] none [])) ∧
    r.findTag "Publisher" = some (publisherSection md (.mk "Publisher" [] none [])) ∧
    r.findTag "GTIN" = some (gtinSection md (.mk "GTIN" [] none [])) ∧
    r.findTag "CoverDate" = some (coverDateSection md (.mk "CoverDate" [] none [])) ∧
    r.findTag "Notes" = some (notesSection md (.mk "Notes" [] none [])) ∧
    r.findTag "Prices" = some (pricesSection md (.mk "Prices" [] none [])) ∧
    (r.findTag "IDS").isSome ∧
    (r.findTag "LastModified").map Element.text = some (some now) := by
  obtain ⟨cs2, hE, hr, -⟩ := convert_ok_inv h
  subst hr
  have hpre := preSteps_pres tabs md (normFormat md) (genresAfterManga md)
  have hpost := postSteps_pres md now
  have hndpre : ((preSteps tabs md (normFormat md) (genresAfterManga md)).map Prod.fst).Nodup := by
    show (["Credits", "Series", "Number", "Stories", "CollectionTitle", "Genres",
           "Summary", "URLs", "AgeRating", "Tags", "Characters", "Teams",
           "Locations", "Arcs"] : List String).Nodup
    decide
  have hndpost : ((postSteps md now).map Prod.fst).Nodup := by
    show (["Publisher", "GTIN", "CoverDate", "Notes", "Prices", "LastModified"] :
        List String).Nodup
    decide
  refine ⟨?_, ?_, ?_, ?_, ?_, ?_, ?_, ?_, ?_, ?_, ?_, ?_, ?_, ?_, ?_, ?_, ?_, ?_, ?_, ?_, ?_⟩
  · rw [findTag_withChildren]
    have hfpost : (postSteps md now).find? (fun p => p.1 == "Credits") = none := rfl
    rw [findC_applySteps_none _ hpost hfpost]
    have hni : ("Credits" : String) ≠ "IDS" := by decide
    rw [updateFirstE_ok_ne (idsSection_pres md) hni hE]
    have hfpre : (preSteps tabs md (normFormat md) (genresAfterManga md)).find?
        (fun p => p.1 == "Credits") = some ("Credits", creditsSection tabs md) := rfl
    rw [findC_applySteps_found _ _ hpre hndpre hfpre]
    obtain ⟨e, he, ht⟩ := findC_exists_of_isSome
      (findC_foldl_ensure_mem topTags (show "Credits" ∈ topTags by decide)
        ((rootOpt.getD freshRoot).children))
    rw [he]
    obtain ⟨tg, a, tx, c⟩ := e
    have ht' : tg = "Credits" := ht
    subst ht'
    rfl
  · rw [findTag_withChildren]
    have hfpost : (postSteps md now).find? (fun p => p.1 == "Series") = none := rfl
    rw [findC_applySteps_none _ hpost hfpost]
    have hni : ("Series" : String) ≠ "IDS" := by decide
    rw [updateFirstE_ok_ne (idsSection_pres md) hni hE]
    have hfpre : (preSteps tabs md (normFormat md) (genresAfterManga md)).find?
        (fun p => p.1 == "Series") = some ("Series", seriesSection md) := rfl
    rw [findC_applySteps_found _ _ hpre hndpre hfpre]
    obtain ⟨e, he, ht⟩ := findC_exists_of_isSome
      (findC_foldl_ensure_mem topTags (show "Series" ∈ topTags by decide)
        ((rootOpt.getD freshRoot).children))
    rw [he]
    obtain ⟨tg, a, tx, c⟩ := e
    have ht' : tg = "Series" := ht
    subst ht'
    rfl
  · rw [findTag_withChildren]
    have hfpost : (postSteps md now).find? (fun p => p.1 == "Number") = none := rfl
    rw [findC_applySteps_none _ hpost hfpost]
    have hni : ("Number" : String) ≠ "IDS" := by decide
    rw [updateFirstE_ok_ne (idsSection_pres md) hni hE]
    have hfpre : (preSteps tabs md (normFormat md) (genresAfterManga md)).find?
        (fun p => p.1 == "Number") = some ("Number", numberSection md) := rfl
    rw [findC_applySteps_found _ _ hpre hndpre hfpre]
    obtain ⟨e, he, ht⟩ := findC_exists_of_isSome
      (findC_foldl_ensure_mem topTags (show "Number" ∈ topTags by decide)
        ((rootOpt.getD freshRoot).children))
    rw [he]
    obtain ⟨tg, a, tx, c⟩ := e
    have ht' : tg = "Number" := ht
    subst ht'
    rfl
  · rw [findTag_withChildren]
    have hfpost : (postSteps md now).find? (fun p => p.1 == "Stories") = none := rfl
    rw [findC_applySteps_none _ hpost hfpost]
    have hni : ("Stories" : String) ≠ "IDS" := by decide
    rw [updateFirstE_ok_ne (idsSection_pres md) hni hE]
    have hfpre : (preSteps tabs md (normFormat md) (genresAfterManga md)).find?
        (fun p => p.1 == "Stories") = some ("Stories", storiesSection md (normFormat md)) := rfl
    rw [findC_applySteps_found _ _ hpre hndpre hfpre]
    obtain ⟨e, he, ht⟩ := findC_exists_of_isSome
      (findC_foldl_ensure_mem topTags (show "Stories" ∈ topTags by decide)
        ((rootOpt.getD freshRoot).children))
    rw [he]
    obtain ⟨tg, a, tx, c⟩ := e
    have ht' : tg = "Stories" := ht
    subst ht'
    rfl
  · rw [findTag_withChildren]
    have hfpost : (postSteps md now).find? (fun p => p.1 == "CollectionTitle") = none := rfl
    rw [findC_applySteps_none _ hpost hfpost]
    have hni : ("CollectionTitle" : String) ≠ "IDS" := by decide
    rw [updateFirstE_ok_ne (idsSection_pres md) hni hE]
    have hfpre : (preSteps tabs md (normFormat md) (genresAfterManga md)).find?
        (fun p => p.1 == "CollectionTitle") = some ("CollectionTitle", titleSection md (normFormat md)) := rfl
    rw [findC_applySteps_found _ _ hpre hndpre hfpre]
    obtain ⟨e, he, ht⟩ := findC_exists_of_isSome
      (findC_foldl_ensure_mem topTags (show "CollectionTitle" ∈ topTags by decide)
        ((rootOpt.getD freshRoot).children))
    rw [he]
    obtain ⟨tg, a, tx, c⟩ := e
    have ht' : tg = "CollectionTitle" := ht
    subst ht'
    rfl
  · rw [findTag_withChildren]
    have hfpost : (postSteps md now).find? (fun p => p.1 == "Genres") = none := rfl
    rw [findC_applySteps_none _ hpost hfpost]
    have hni : ("Genres" : String) ≠ "IDS" := by decide
    rw [updateFirstE_ok_ne (idsSection_pres md) hni hE]
    have hfpre : (preSteps tabs md (normFormat md) (genresAfterManga md)).find?
        (fun p => p.1 == "Genres") = some ("Genres", genresSection (genresAfterManga md)) := rfl
    rw [findC_applySteps_found _ _ hpre hndpre hfpre]
    obtain ⟨e, he, ht⟩ := findC_exists_of_isSome
      (findC_foldl_ensure_mem topTags (show "Genres" ∈ topTags by decide)
        ((rootOpt.getD freshRoot).children))
    rw [he]
    obtain ⟨tg, a, tx, c⟩ := e
    have ht' : tg = "Genres" := ht
    subst ht'
    rfl
  · rw [findTag_withChildren]
    have hfpost : (postSteps md now).find? (fun p => p.1 == "Summary") = none := rfl
    rw [findC_applySteps_none _ hpost hfpost]
    have hni : ("Summary" : String) ≠ "IDS" := by decide
    rw [updateFirstE_ok_ne (idsSection_pres md) hni hE]
    have hfpre : (preSteps tabs md (normFormat md) (genresAfterManga md)).find?
        (fun p => p.1 == "Summary") = some ("Summary", summarySection md) := rfl
    rw [findC_applySteps_found _ _ hpre hndpre hfpre]
    obtain ⟨e, he, ht⟩ := findC_exists_of_isSome
      (findC_foldl_ensure_mem topTags (show "Summary" ∈ topTags by decide)
        ((rootOpt.getD freshRoot).children))
    rw [he]
    obtain ⟨tg, a, tx, c⟩ := e
    have ht' : tg = "Summary" := ht
    subst ht'
    rfl
  · rw [findTag_withChildren]
    have hfpost : (postSteps md now).find? (fun p => p.1 == "URLs") = none := rfl
    rw [findC_applySteps_none _ hpost hfpost]
    have hni : ("URLs" : String) ≠ "IDS" := by decide
    rw [updateFirstE_ok_ne (idsSection_pres md) hni hE]
    have hfpre : (preSteps tabs md (normFormat md) (genresAfterManga md)).find?
        (fun p => p.1 == "URLs") = some ("URLs", urlsSection md) := rfl
    rw [findC_applySteps_found _ _ hpre hndpre hfpre]
    obtain ⟨e, he, ht⟩ := findC_exists_of_isSome
      (findC_foldl_ensure_mem topTags (show "URLs" ∈ topTags by decide)
        ((rootOpt.getD freshRoot).children))
    rw [he]
    obtain ⟨tg, a, tx, c⟩ := e
    have ht' : tg = "URLs" := ht
    subst ht'
    rfl
  · rw [findTag_withChildren]
    have hfpost : (postSteps md now).find? (fun p => p.1 == "AgeRating") = none := rfl
    rw [findC_applySteps_none _ hpost hfpost]
    have hni : ("AgeRating" : String) ≠ "IDS" := by decide
    rw [updateFirstE_ok_ne (idsSection_pres md) hni hE]
    have hfpre : (preSteps tabs md (normFormat md) (genresAfterManga md)).find?
        (fun p => p.1 == "AgeRating") = some ("AgeRating", ageRatingSection md) := rfl
    rw [findC_applySteps_found _ _ hpre hndpre hfpre]
    obtain ⟨e, he, ht⟩ := findC_exists_of_isSome
      (findC_foldl_ensure_mem topTags (show "AgeRating" ∈ topTags by decide)
        ((rootOpt.getD freshRoot).children))
    rw [he]
    obtain ⟨tg, a, tx, c⟩ := e
    have ht' : tg = "AgeRating" := ht
    subst ht'
    rfl
  · rw [findTag_withChildren]
    have hfpost : (postSteps md now).find? (fun p => p.1 == "Tags") = none := rfl
    rw [findC_applySteps_none _ hpost hfpost]
    have hni : ("Tags" : String) ≠ "IDS" := by decide
    rw [updateFirstE_ok_ne (idsSection_pres md) hni hE]
    have hfpre : (preSteps tabs md (normFormat md) (genresAfterManga md)).find?
        (fun p => p.1 == "Tags") = some ("Tags", tagsSection md) := rfl
    rw [findC_applySteps_found _ _ hpre hndpre hfpre]
    obtain ⟨e, he, ht⟩ := findC_exists_of_isSome
      (findC_foldl_ensure_mem topTags (show "Tags" ∈ topTags by decide)
        ((rootOpt.getD freshRoot).children))
    rw [he]
    obtain ⟨tg, a, tx, c⟩ := e
    have ht' : tg = "Tags" := ht
    subst ht'
    rfl
  · rw [findTag_withChildren]
    have hfpost : (postSteps md now).find? (fun p => p.1 == "Characters") = none := rfl
    rw [findC_applySteps_none _ hpost hfpost]
    have hni : ("Characters" : String) ≠ "IDS" := by decide
    rw [updateFirstE_ok_ne (idsSection_pres md) hni hE]
    have hfpre : (preSteps tabs md (normFormat md) (genresAfterManga md)).find?
        (fun p => p.1 == "Characters") = some ("Characters", charactersSection md) := rfl
    rw [findC_applySteps_found _ _ hpre hndpre hfpre]
    obtain ⟨e, he, ht⟩ := findC_exists_of_isSome
      (findC_foldl_ensure_mem topTags (show "Characters" ∈ topTags by decide)
        ((rootOpt.getD freshRoot).children))
    rw [he]
    obtain ⟨tg, a, tx, c⟩ := e
    have ht' : tg = "Characters" := ht
    subst ht'
    rfl
  · rw [findTag_withChildren]
    have hfpost : (postSteps md now).find? (fun p => p.1 == "Teams") = none := rfl
    rw [findC_applySteps_none _ hpost hfpost]
    have hni : ("Teams" : String) ≠ "IDS" := by decide
    rw [updateFirstE_ok_ne (idsSection_pres md) hni hE]
    have hfpre : (preSteps tabs md (normFormat md) (genresAfterManga md)).find?
        (fun p => p.1 == "Teams") = some ("Teams", teamsSection md) := rfl
    rw [findC_applySteps_found _ _ hpre hndpre hfpre]
    obtain ⟨e, he, ht⟩ := findC_exists_of_isSome
      (findC_foldl_ensure_mem topTags (show "Teams" ∈ topTags by decide)
        ((rootOpt.getD freshRoot).children))
    rw [he]
    obtain ⟨tg, a, tx, c⟩ := e
    have ht' : tg = "Teams" := ht
    subst ht'
    rfl
  · rw [findTag_withChildren]
    have hfpost : (postSteps md now).find? (fun p => p.1 == "Locations") = none := rfl
    rw [findC_applySteps_none _ hpost hfpost]
    have hni : ("Locations" : String) ≠ "IDS" := by decide
    rw [updateFirstE_ok_ne (idsSection_pres md) hni hE]
    have hfpre : (preSteps tabs md (normFormat md) (genresAfterManga md)).find?
        (fun p => p.1 == "Locations") = some ("Locations", locationsSection md) := rfl
    rw [findC_applySteps_found _ _ hpre hndpre hfpre]
    obtain ⟨e, he, ht⟩ := findC_exists_of_isSome
      (findC_foldl_ensure_mem topTags (show "Locations" ∈ topTags by decide)
        ((rootOpt.getD freshRoot).children))
    rw [he]
    obtain ⟨tg, a, tx, c⟩ := e
    have ht' : tg = "Locations" := ht
    subst ht'
    rfl
  · rw [findTag_withChildren]
    have hfpost : (postSteps md now).find? (fun p => p.1 == "Arcs") = none := rfl
    rw [findC_applySteps_none _ hpost hfpost]
    have hni : ("Arcs" : String) ≠ "IDS" := by decide
    rw [updateFirstE_ok_ne (idsSection_pres md) hni hE]
    have hfpre : (preSteps tabs md (normFormat md) (genresAfterManga md)).find?
        (fun p => p.1 == "Arcs") = some ("Arcs", arcsSection md) := rfl
    rw [findC_applySteps_found _ _ hpre hndpre hfpre]
    obtain ⟨e, he, ht⟩ := findC_exists_of_isSome
      (findC_foldl_ensure_mem topTags (show "Arcs" ∈ topTags by decide)
        ((rootOpt.getD freshRoot).children))
    rw [he]
    obtain ⟨tg, a, tx, c⟩ := e
    have ht' : tg = "Arcs" := ht
    subst ht'
    rfl
  · rw [findTag_withChildren]
    have hfpost : (postSteps md now).find? (fun p => p.1 == "Publisher") = some ("Publisher", publisherSection md) := rfl
    rw [findC_applySteps_found _ _ hpost hndpost hfpost]
    have hni : ("Publisher" : String) ≠ "IDS" := by decide
    rw [updateFirstE_ok_ne (idsSection_pres md) hni hE]
    have hfpre : (preSteps tabs md (normFormat md) (genresAfterManga md)).find?
        (fun p => p.1 == "Publisher") = none := rfl
    rw [findC_applySteps_none _ hpre hfpre]
    obtain ⟨e, he, ht⟩ := findC_exists_of_isSome
      (findC_foldl_ensure_mem topTags (show "Publisher" ∈ topTags by decide)
        ((rootOpt.getD freshRoot).children))
    rw [he]
    obtain ⟨tg, a, tx, c⟩ := e
    have ht' : tg = "Publisher" := ht
    subst ht'
    rfl
  · rw [findTag_withChildren]
    have hfpost : (postSteps md now).find? (fun p => p.1 == "GTIN") = some ("GTIN", gtinSection md) := rfl
    rw [findC_applySteps_found _ _ hpost hndpost hfpost]
    have hni : ("GTIN" : String) ≠ "IDS" := by decide
    rw [updateFirstE_ok_ne (idsSection_pres md) hni hE]
    have hfpre : (preSteps tabs md (normFormat md) (genresAfterManga md)).find?
        (fun p => p.1 == "GTIN") = none := rfl
    rw [findC_applySteps_none _ hpre hfpre]
    obtain ⟨e, he, ht⟩ := findC_exists_of_isSome
      (findC_foldl_ensure_mem topTags (show "GTIN" ∈ topTags by decide)
        ((rootOpt.getD freshRoot).children))
    rw [he]
    obtain ⟨tg, a, tx, c⟩ := e
    have ht' : tg = "GTIN" := ht
    subst ht'
    rfl
  · rw [findTag_withChildren]
    have hfpost : (postSteps md now).find? (fun p => p.1 == "CoverDate") = some ("CoverDate", coverDateSection md) := rfl
    rw [findC_applySteps_found _ _ hpost hndpost hfpost]
    have hni : ("CoverDate" : String) ≠ "IDS" := by decide
    rw [updateFirstE_ok_ne (idsSection_pres md) hni hE]
    have hfpre : (preSteps tabs md (normFormat md) (genresAfterManga md)).find?
        (fun p => p.1 == "CoverDate") = none := rfl
    rw [findC_applySteps_none _ hpre hfpre]
    obtain ⟨e, he, ht⟩ := findC_exists_of_isSome
      (findC_foldl_ensure_mem topTags (show "CoverDate" ∈ topTags by decide)
        ((rootOpt.getD freshRoot).children))
    rw [he]
    obtain ⟨tg, a, tx, c⟩ := e
    have ht' : tg = "CoverDate" := ht
    subst ht'
    rfl
  · rw [findTag_withChildren]
    have hfpost : (postSteps md now).find? (fun p => p.1 == "Notes") = some ("Notes", notesSection md) := rfl
    rw [findC_applySteps_found _ _ hpost hndpost hfpost]
    have hni : ("Notes" : String) ≠ "IDS" := by decide
    rw [updateFirstE_ok_ne (idsSection_pres md) hni hE]
    have hfpre : (preSteps tabs md (normFormat md) (genresAfterManga md)).find?
        (fun p => p.1 == "Notes") = none := rfl
    rw [findC_applySteps_none _ hpre hfpre]
    obtain ⟨e, he, ht⟩ := findC_exists_of_isSome
      (findC_foldl_ensure_mem topTags (show "Notes" ∈ topTags by decide)
        ((rootOpt.getD freshRoot).children))
    rw [he]
    obtain ⟨tg, a, tx, c⟩ := e
    have ht' : tg = "Notes" := ht
    subst ht'
    rfl
  · rw [findTag_withChildren]
    have hfpost : (postSteps md now).find? (fun p => p.1 == "Prices") = some ("Prices", pricesSection md) := rfl
    rw [findC_applySteps_found _ _ hpost hndpost hfpost]
    have hni : ("Prices" : String) ≠ "IDS" := by decide
    rw [updateFirstE_ok_ne (idsSection_pres md) hni hE]
    have hfpre : (preSteps tabs md (normFormat md) (genresAfterManga md)).find?
        (fun p => p.1 == "Prices") = none := rfl
    rw [findC_applySteps_none _ hpre hfpre]
    obtain ⟨e, he, ht⟩ := findC_exists_of_isSome
      (findC_foldl_ensure_mem topTags (show "Prices" ∈ topTags by decide)
        ((rootOpt.getD freshRoot).children))
    rw [he]
    obtain ⟨tg, a, tx, c⟩ := e
    have ht' : tg = "Prices" := ht
    subst ht'
    rfl
  · rw [findTag_withChildren]
    have hfpost : (postSteps md now).find? (fun p => p.1 == "IDS") = none := rfl
    rw [findC_applySteps_none _ hpost hfpost]
    refine updateFirstE_ok_isSome (idsSection_pres md) hE ?_
    have hfpre : (preSteps tabs md (normFormat md) (genresAfterManga md)).find?
        (fun p => p.1 == "IDS") = none := rfl
    rw [findC_applySteps_none _ hpre hfpre]
    exact findC_foldl_ensure_mem topTags (show "IDS" ∈ topTags by decide)
      ((rootOpt.getD freshRoot).children)
  · rw [findTag_withChildren]
    have hfpost : (postSteps md now).find? (fun p => p.1 == "LastModified") =
        some ("LastModified", lastModifiedSection now) := rfl
    rw [findC_applySteps_found _ _ hpost hndpost hfpost]
    have hni : ("LastModified" : String) ≠ "IDS" := by decide
    rw [updateFirstE_ok_ne (idsSection_pres md) hni hE]
    have hfpre : (preSteps tabs md (normFormat md) (genresAfterManga md)).find?
        (fun p => p.1 == "LastModified") = none := rfl
    rw [findC_applySteps_none _ hpre hfpre]
    obtain ⟨e, he, ht⟩ := findC_exists_of_isSome
      (findC_foldl_ensure_mem topTags (show "LastModified" ∈ topTags by decide)
        ((rootOpt.getD freshRoot).children))
    rw [he]
    obtain ⟨tg, a, tx, c⟩ := e
    rfl

/-! ## Claims -/

/-- C1: the claim states that every maturity input in
{"G", "all ages", "Everyone"} is written to AgeRating as `Everyone`,
every input in {"18+", "Adults Only 18+"} as `Adult`, and unmatched input
as `Unknown`.  The entry `'G'` does occur in the source's
`mature_everyone` list, but the input is lowercased before the membership
test, so `"G"` can never match it and is written as `Unknown` instead of
`Everyone`: the upper-case list entries are dead, a slip in the code.
All remaining parts of the claim hold. -/
theorem C1_maturity_rating_normalization :
    "G" ∈ mature_everyone ∧
    normalizeRating "G" = "Unknown" ∧
    normalizeRating "all ages" = "Everyone" ∧
    normalizeRating "Everyone" = "Everyone" ∧
    normalizeRating "18+" = "Adult" ∧
    normalizeRating "Adults Only 18+" = "Adult" ∧
    normalizeRating "not a rating" = "Unknown" ∧
    (ageRatingSection { maturity_rating := "G" } (.mk "AgeRating" [] none [])).text
      = some "Unknown" ∧
    (ageRatingSection { maturity_rating := "all ages" } (.mk "AgeRating" [] none [])).text
      = some "Everyone" :=
  ⟨by decide, rfl, rfl, rfl, rfl, rfl, rfl, rfl, rfl⟩

/-- C2: the claim states that every credit role in the translator synonym
set is classified as `Translator`.  The classification chain of lines
337-354 consults the writer/penciller/inker/colorist/letterer/cover/editor
synonym sets and `ADDITIONAL_CREDITS`, but never `translator_synonyms`
(even though `_get_parseable_credits`, used by `supports_credit_role`,
does include it), so the role `"translator"` falls through to `Other`. -/
theorem C2_translator_role_classification :
    "translator" ∈ specSynonyms.translator_synonyms ∧
    supports_credit_role specSynonyms "Translator" = true ∧
    "translator" ∉ ADDITIONAL_CREDITS ∧
    classifyRole specSynonyms "translator" = "Other" ∧
    (creditsSection specSynonyms { credits := [⟨"Alda Modan", "Translator"⟩] }
        (.mk "Credits" [] none [])).children
      = [creditElem "Alda Modan" ["Other"]] :=
  ⟨by decide, rfl, by decide, rfl, rfl⟩

/-- C3 counterexample: encoding a record without an issue id into a
document whose `IDS` element already holds an `ID` child leaves that
child untouched - `IDS` is *not* cleared of its prior children (source
comment "Will preserve IDs of sources"), contrary to the claim that each
of the fixed top-level elements is cleared before repopulation. -/
theorem C3_ids_not_cleared :
    (convert specSynonyms {} (some c3doc) "T3c").toOption.map
        (fun p => (p.1.findTag "IDS").map Element.children)
      = some (some [Element.mk "ID" [("source", "Metron")] (some "42") []]) := rfl

/-- C3 (amended): after every successful encode each of the 21 fixed
top-level children exists; each of them except `IDS` and `LastModified`
is cleared of prior children before being repopulated from the metadata
record (its final value equals the section rebuilt from an empty element,
hence is independent of the prior document content); `IDS` is preserved
and upserted rather than cleared, and `LastModified` only has its text
overwritten with the timestamp. -/
theorem C3_top_level_structure {tabs : RoleSynonyms} {md : MD}
    {rootOpt : Option Element} {now : String} {r : Element} {md' : MD}
    (h : convert tabs md rootOpt now = .ok (r, md')) :
    (∀ t ∈ topTags, (r.findTag t).isSome) ∧
    r.findTag "Credits" = some (creditsSection tabs md (.mk "Credits" [] none [])) ∧
    r.findTag "Series" = some (seriesSection md (.mk "Series" [] none [])) ∧
    r.findTag "Number" = some (numberSection md (.mk "Number" [] none [])) ∧
    r.findTag "Stories" = some (storiesSection md (normFormat md) (.mk "Stories" [] none [])) ∧
    r.findTag "CollectionTitle"
      = some (titleSection md (normFormat md) (.mk "CollectionTitle" [] none [])) ∧
    r.findTag "Genres" = some (genresSection (genresAfterManga md) (.mk "Genres" [] none [])) ∧
    r.findTag "Summary" = some (summarySection md (.mk "Summary" [] none [])) ∧
    r.findTag "URLs" = some (urlsSection md (.mk "URLs" [] none [])) ∧
    r.findTag "AgeRating" = some (ageRatingSection md (.mk "AgeRating" [] none [])) ∧
    r.findTag "Tags" = some (tagsSection md (.mk "Tags" [] none [])) ∧
    r.findTag "Characters" = some (charactersSection md (.mk "Characters" [] none [])) ∧
    r.findTag "Teams" = some (teamsSection md (.mk "Teams" [] none [])) ∧
    r.findTag "Locations" = some (locationsSection md (.mk "Locations" [] none [])) ∧
    r.findTag "Arcs" = some (arcsSection md (.mk "Arcs" [] none [])) ∧
    r.findTag "Publisher" = some (publisherSection md (.mk "Publisher" [] none [])) ∧
    r.findTag "GTIN" = some (gtinSection md (.mk "GTIN" [] none [])) ∧
    r.findTag "CoverDate" = some (coverDateSection md (.mk "CoverDate" [] none [])) ∧
    r.findTag "Notes" = some (notesSection md (.mk "Notes" [] none [])) ∧
    r.findTag "Prices" = some (pricesSection md (.mk "Prices" [] none [])) ∧
    (r.findTag "LastModified").map Element.text = some (some now) := by
  obtain ⟨hCred, hSer, hNum, hSto, hTit, hGen, hSum, hUrl, hAge, hTag, hCha,
    hTea, hLoc, hArc, hPub, hGti, hCov, hNot, hPri, hIds, hLas⟩ := convert_findTag h
  refine ⟨?_, hCred, hSer, hNum, hSto, hTit, hGen, hSum, hUrl, hAge, hTag, hCha,
    hTea, hLoc, hArc, hPub, hGti, hCov, hNot, hPri, hLas⟩
  intro t ht
  fin_cases ht
  · exact hIds
  · rw [hNum]; rfl
  · rw [hSer]; rfl
  · rw [hSto]; rfl
  · rw [hTit]; rfl
  · rw [hSum]; rfl
  · rw [hNot]; rfl
  · rw [hPri]; rfl
  · rw [hGti]; rfl
  · rw [hGen]; rfl
  · rw [hAge]; rfl
  · rw [hTag]; rfl
  · rw [hArc]; rfl
  · rw [hCha]; rfl
  · rw [hTea]; rfl
  · rw [hLoc]; rfl
  · rw [hPub]; rfl
  · rw [hCov]; rfl
  · rw [hUrl]; rfl
  · rw [hCred]; rfl
  · cases hf : r.findTag "LastModified" with
    | none => rw [hf] at hLas; simp at hLas
    | some e => rfl

/-- C3 witness: a concrete successful encode into a pre-populated
document, with the `Series` element equal to its rebuilt-from-empty form
and the `IDS` element present. -/
theorem C3_top_level_structure_witness :
    convert specSynonyms c3md (some c3doc) "T3" = .ok (c3res.1, c3res.2) ∧
    c3res.1.findTag "Series" = some (seriesSection c3md (.mk "Series" [] none [])) ∧
    (c3res.1.findTag "IDS").isSome := by
  have h := C3_top_level_structure
    (show convert specSynonyms c3md (some c3doc) "T3" = .ok (c3res.1, c3res.2) from rfl)
  exact ⟨rfl, h.2.2.1, h.1 "IDS" (by decide)⟩

/-- C4: for every record with non-empty series and format, each of the
inputs "TPB", "tpb", "Trade Paperback", "collected edition" is written to
Series/Format as `Trade Paperback`, and any input matching neither the
trade-paperback nor the one-shot synonym lists nor the lookup table is
written as `Single Issue`. -/
theorem C4_format_normalization :
    (∀ f ∈ (["TPB", "tpb", "Trade Paperback", "collected edition"] : List String),
        normalizeFormat f = "Trade Paperback") ∧
    (∀ f : String, casefold f ∉ format_tpb → casefold f ∉ format_one_shot →
        dictFind format_dict (casefold f) = none → normalizeFormat f = "Single Issue") ∧
    (∀ md : MD, md.series ≠ "" → md.format ≠ "" →
        (seriesSection md (.mk "Series" [] none [])).findTag "Format" =
          some (.mk "Format" [] (addElementText (normalizeFormat md.format)) [])) := by
  refine ⟨?_, ?_, ?_⟩
  · intro f hf
    fin_cases hf <;> rfl
  · intro f h1 h2 h3
    simp only [normalizeFormat]
    rw [if_neg h1, if_neg h2]
    unfold dictGet
    unfold dictFind at h3
    rw [Option.map_eq_none'] at h3
    rw [h3]
  · intro md hs hf
    unfold seriesSection Element.findTag
    simp only [Element.children]
    rw [if_pos hs, if_pos hf]
    by_cases hv : truthyInt md.volume = true
    · rw [if_pos hv]; rfl
    · rw [if_neg hv]; rfl

/-- C4 witness: the theorem applied at "TPB", at the unmatched input
"Chapbook", and at a concrete record. -/
theorem C4_format_normalization_witness :
    normalizeFormat "TPB" = "Trade Paperback" ∧
    normalizeFormat "Chapbook" = "Single Issue" ∧
    (seriesSection { series := "S", format := "TPB" } (.mk "Series" [] none [])).findTag
        "Format" = some (.mk "Format" [] (addElementText (normalizeFormat "TPB")) []) :=
  ⟨C4_format_normalization.1 "TPB" (by decide),
   C4_format_normalization.2.1 "Chapbook" (by decide) (by decide) (by decide),
   C4_format_normalization.2.2 { series := "S", format := "TPB" } (by decide) (by decide)⟩

/-- C5 counterexample: `year = 0` is non-null, yet `if md.year:` is a
truthiness test, so no CoverDate text is written at all (the claim would
require `2000-01-01`). -/
theorem C5_year_zero_not_written :
    ({ year := some 0 : MD }).year ≠ none ∧
    (coverDateSection { year := some 0 } (.mk "CoverDate" [] none [])).text = none ∧
    (convert specSynonyms { year := some 0 } none "T5c").toOption.map
        (fun p => (p.1.findTag "CoverDate").map Element.text)
      = some (some none) :=
  ⟨by decide, rfl, rfl⟩

/-- C5 (amended): for every record with a non-null, *non-zero* year, the
encoder writes CoverDate as the zero-padded `YYYY-MM-DD` string, month
and day defaulting to 1 when missing, the year adjusted by the two-digit
heuristic (`< 50` gains 2000, `50 ≤ y < 100` gains 1900, `≥ 100`
unchanged: 5 becomes 2005, 55 becomes 1955, 1999 stays 1999). -/
theorem C5_cover_date {tabs : RoleSynonyms} {md : MD} {rootOpt : Option Element}
    {now : String} {r : Element} {md' : MD} (y : Int)
    (h : convert tabs md rootOpt now = .ok (r, md'))
    (hy : md.year = some y) (hnz : y ≠ 0) :
    r.findTag "CoverDate" =
      some (Element.mk "CoverDate" []
        (some (padInt 4 (adjustYear y) ++ "-" ++
               padInt 2 (pyOr1 md.month) ++ "-" ++ padInt 2 (pyOr1 md.day))) []) ∧
    adjustYear 5 = 2005 ∧ adjustYear 55 = 1955 ∧ adjustYear 1999 = 1999 := by
  obtain ⟨-, -, -, -, -, -, -, -, -, -, -, -, -, -, -, -, hCov, -, -, -, -⟩ :=
    convert_findTag h
  refine ⟨?_, by decide, by decide, by decide⟩
  rw [hCov]
  simp [coverDateSection, pubDateString, hy, truthyInt, hnz, Element.tag]

/-- C5 witness: a record with year 5 and missing month/day encodes
CoverDate as `2005-01-01`. -/
theorem C5_cover_date_witness :
    convert specSynonyms c5md none "T5" = .ok (c5res.1, c5res.2) ∧
    c5res.1.findTag "CoverDate" = some (Element.mk "CoverDate" [] (some "2005-01-01") []) := by
  have h := (C5_cover_date 5
    (show convert specSynonyms c5md none "T5" = .ok (c5res.1, c5res.2) from rfl)
    rfl (by decide)).1
  exact ⟨rfl, by rw [h]; rfl⟩

theorem addRoleEntry_keys (key person role : String)
    (l : List (String × String × List String)) :
    (addRoleEntry key person role l).map Prod.fst =
      if key ∈ l.map Prod.fst then l.map Prod.fst else l.map Prod.fst ++ [key] := by
  induction l with
  | nil => simp [addRoleEntry]
  | cons p l ih =>
    obtain ⟨k, pr, rs⟩ := p
    by_cases hb : (k == key) = true
    · have hk : k = key := eq_of_beq hb
      subst hk
      simp [addRoleEntry, hb]
    · rw [Bool.not_eq_true] at hb
      have hk : k ≠ key := ne_of_beq_false hb
      by_cases hm : key ∈ l.map Prod.fst <;>
        simp [addRoleEntry, hb, ih, hm, List.mem_cons, Ne.symm hk]

theorem foldl_creatorStep_nodup (tabs : RoleSynonyms) (credits : List CreditEntry) :
    ∀ acc : List (String × String × List String), (acc.map Prod.fst).Nodup →
      ((credits.foldl (creatorStep tabs) acc).map Prod.fst).Nodup := by
  induction credits with
  | nil => intro acc h; exact h
  | cons c credits ih =>
    intro acc h
    rw [List.foldl_cons]
    apply ih
    unfold creatorStep
    rw [addRoleEntry_keys]
    split
    · exact h
    next hmem =>
      rw [List.nodup_append]
      exact ⟨h, List.nodup_singleton _, by
        intro x hx hx'
        rw [List.mem_singleton] at hx'
        exact hmem (hx' ▸ hx)⟩

theorem foldl_creatorStep_mem_mono (tabs : RoleSynonyms) (credits : List CreditEntry) :
    ∀ (acc : List (String × String × List String)) (k : String),
      k ∈ acc.map Prod.fst → k ∈ (credits.foldl (creatorStep tabs) acc).map Prod.fst := by
  induction credits with
  | nil => intro acc k h; exact h
  | cons c credits ih =>
    intro acc k h
    rw [List.foldl_cons]
    apply ih
    unfold creatorStep
    rw [addRoleEntry_keys]
    split
    · exact h
    · exact List.mem_append_left _ h

theorem foldl_creatorStep_mem (tabs : RoleSynonyms) (credits : List CreditEntry) :
    ∀ (acc : List (String × String × List String)) (c : CreditEntry), c ∈ credits →
      pyKey c.person ∈ (credits.foldl (creatorStep tabs) acc).map Prod.fst := by
  induction credits with
  | nil => intro acc c hc; cases hc
  | cons c0 credits ih =>
    intro acc c hc
    rw [List.foldl_cons]
    rcases List.mem_cons.mp hc with rfl | hmem
    · apply foldl_creatorStep_mem_mono
      unfold creatorStep
      rw [addRoleEntry_keys]
      split
      next hm => exact hm
      · exact List.mem_append_right _ (List.mem_singleton_self _)
    · exact ih _ c hmem

/-- C6 counterexample: the persons "Jane Doe" and "JaneDoe" agree after
*space-stripping* and casefolding, yet the encoder produces two separate
`Credit` elements for them - the fold key replaces spaces with
underscores instead of stripping them. -/
theorem C6_space_strip_no_merge :
    casefold (String.mk ("Jane Doe".data.filter (fun c => c != ' '))) =
      casefold (String.mk ("JaneDoe".data.filter (fun c => c != ' '))) ∧
    ((creditsSection specSynonyms
        { credits := [⟨"Jane Doe", "Writer"⟩, ⟨"JaneDoe", "Penciller"⟩] }
        (.mk "Credits" [] none [])).children).length = 2 :=
  ⟨by decide, rfl⟩

/-- C6 (amended): the credits ("Jane Doe", Writer) and ("jane doe",
Penciller) merge into exactly one `Credit` element with Creator
"Jane Doe" and two `Role` children; in general, all credits whose person
names agree after replacing spaces with underscores and casefolding merge
into a single creators-dict entry (the fold keys are pairwise distinct
and every credit's key is present). -/
theorem C6_credit_merging :
    (creditsSection specSynonyms
        { credits := [⟨"Jane Doe", "Writer"⟩, ⟨"jane doe", "Penciller"⟩] }
        (.mk "Credits" [] none [])
      = Element.mk "Credits" [] none
          [Element.mk "Credit" [] none
            [Element.mk "Creator" [] (some "Jane Doe") [],
             Element.mk "Roles" [] none
               [Element.mk "Role" [] (some "Writer") [],
                Element.mk "Role" [] (some "Penciller") []]]]) ∧
    ∀ (tabs : RoleSynonyms) (credits : List CreditEntry),
      ((buildCreators tabs credits).map Prod.fst).Nodup ∧
      ∀ c ∈ credits, pyKey c.person ∈ (buildCreators tabs credits).map Prod.fst := by
  refine ⟨rfl, ?_⟩
  intro tabs credits
  exact ⟨foldl_creatorStep_nodup tabs credits [] (by simp),
    fun c hc => foldl_creatorStep_mem tabs credits [] c hc⟩

/-- C6 witness: the general merging fact applied at a concrete credit
list. -/
theorem C6_credit_merging_witness :
    pyKey "Jane Doe" ∈ (buildCreators specSynonyms [⟨"Jane Doe", "Writer"⟩]).map Prod.fst :=
  (C6_credit_merging.2 specSynonyms [⟨"Jane Doe", "Writer"⟩]).2
    ⟨"Jane Doe", "Writer"⟩ (by decide)

/-- C7: `has_tags` returns true iff the archive supports files, the
fixed filename `MetronInfo.xml` is in its file list and its bytes parse
as XML with root tag `MetronInfo`; in every other case - malformed XML, a
root such as `ComicInfo`, or an exception from any archive call - it
returns false.  `has_tags` is a total `Bool`-valued function of the
archive model, which is the embedding of "never raises": every exception
of a collaborator (`Except.error`) is caught and mapped to `false`. -/
theorem C7_has_tags_iff (a : ArchiveModel) :
    has_tags a = true ↔
      a.supports_files = .ok true ∧
      ∃ names, a.get_filename_list = .ok names ∧ metronFile ∈ names ∧
        ∃ doc, a.read_file metronFile = .ok (ParsedBytes.wellFormed doc) ∧
          doc.tag = "MetronInfo" := by
  obtain ⟨sup, gfl, rf, wf⟩ := a
  simp only [has_tags, supports_tags]
  cases sup with
  | error err => simp [Bind.bind, Except.bind]
  | ok b =>
    cases b with
    | false => simp [Bind.bind, Except.bind, pure, Except.pure]
    | true =>
      cases gfl with
      | error err => simp [Bind.bind, Except.bind]
      | ok names =>
        by_cases hmem : metronFile ∈ names
        · cases hrf : rf metronFile with
          | error err =>
            simp [Bind.bind, Except.bind, pure, Except.pure, hmem, hrf]
          | ok pb =>
            cases pb with
            | malformed =>
              simp [Bind.bind, Except.bind, pure, Except.pure, hmem, hrf, validateBytes]
            | wellFormed doc =>
              by_cases htag : doc.tag = "MetronInfo" <;>
                simp [Bind.bind, Except.bind, pure, Except.pure, hmem, hrf,
                  validateBytes, htag]
        · simp [Bind.bind, Except.bind, pure, Except.pure, hmem]

/-- C7 witness: a concrete archive carrying a well-formed MetronInfo
document has tags. -/
theorem C7_has_tags_iff_witness : has_tags c7archive = true :=
  (C7_has_tags_iff c7archive).mpr
    ⟨rfl, ["MetronInfo.xml"], rfl, by decide, c7doc, rfl, rfl⟩

theorem attribGet_withText (e : Element) (tx : Option String) (k : String) :
    (e.withText tx).attribGet k = e.attribGet k := by
  obtain ⟨tg, a, t0, c⟩ := e; rfl

theorem text_attribSet (e : Element) (k v : String) :
    (e.attribSet k v).text = e.text := by
  obtain ⟨tg, a, t0, c⟩ := e; rfl

theorem text_withText (e : Element) (tx : Option String) :
    (e.withText tx).text = tx := by
  obtain ⟨tg, a, t0, c⟩ := e; rfl

theorem setKV_find_self (k v : String) (l : List (String × String)) :
    (setKV k v l).find? (fun p => p.1 == k) = some (k, v) := by
  induction l with
  | nil => simp [setKV]
  | cons p l ih =>
    obtain ⟨k', v'⟩ := p
    by_cases hb : (k' == k) = true
    · simp [setKV, hb]
    · rw [Bool.not_eq_true] at hb
      simp [setKV, hb, ih]

theorem setKV_find_ne (k v k' : String) (hne : k' ≠ k) (l : List (String × String)) :
    (setKV k v l).find? (fun p => p.1 == k') = l.find? (fun p => p.1 == k') := by
  have hkk : (k == k') = false := beq_eq_false_iff_ne.mpr (Ne.symm hne)
  induction l with
  | nil => simp [setKV, hkk]
  | cons p l ih =>
    obtain ⟨k'', v''⟩ := p
    by_cases hb : (k'' == k) = true
    · have : k'' = k := eq_of_beq hb
      subst this
      simp [setKV, hb, List.find?, hkk]
    · rw [Bool.not_eq_true] at hb
      by_cases hb' : (k'' == k') = true <;> simp [setKV, hb, List.find?, hb', ih]

theorem attribGet_attribSet_self (e : Element) (k v : String) :
    (e.attribSet k v).attribGet k = some v := by
  obtain ⟨tg, a, t0, c⟩ := e
  simp [Element.attribSet, Element.attribGet, Element.attrib, setKV_find_self]

theorem attribGet_attribSet_ne (e : Element) (k v k' : String) (hne : k' ≠ k) :
    (e.attribSet k v).attribGet k' = e.attribGet k' := by
  obtain ⟨tg, a, t0, c⟩ := e
  simp [Element.attribSet, Element.attribGet, Element.attrib, setKV_find_ne k v k' hne]

/-- The specification of the loop of lines 503-511 when the data origin
is present and every scanned child carries a `source` attribute: the loop
succeeds; afterwards the first child whose source matches holds the issue
id as text and `primary="true"`; a pre-existing match is updated in place
(same child count); absent a match a single new `ID` child is appended. -/
theorem idsLoop_upsert (issueId nm : String) (hid : issueId ≠ "") :
    ∀ cs : List Element, (∀ c ∈ cs, (c.attribGet "source").isSome) →
      ∃ cs', idsLoop issueId (some nm) cs = .ok cs' ∧
        (firstSource nm cs').map (fun c => (c.text, c.attribGet "primary")) =
            some (some issueId, some "true") ∧
        ((firstSource nm cs).isSome →
            cs'.length = cs.length ∧ countSource nm cs' = countSource nm cs) ∧
        (firstSource nm cs = none →
            cs' = cs ++
                [Element.mk "ID" [("source", nm), ("primary", "true")] (some issueId) []] ∧
            countSource nm cs' = countSource nm cs + 1) := by
  intro cs
  induction cs with
  | nil =>
    intro _
    refine ⟨[Element.mk "ID" [("source", nm), ("primary", "true")]
      (addElementText issueId) []], rfl, ?_, ?_, ?_⟩
    · simp [firstSource, List.find?, Element.attribGet, Element.attrib,
        addElementText, hid, Element.text]
    · intro h; simp [firstSource] at h
    · intro _
      simp [countSource, Element.attribGet, Element.attrib, addElementText, hid]
  | cons c cs ih =>
    intro hsrc
    obtain ⟨s, hs⟩ := Option.isSome_iff_exists.mp (hsrc c (List.mem_cons_self _ _))
    by_cases heq : s = nm
    · subst heq
      refine ⟨((c.withText (some issueId)).attribSet "primary" "true") :: cs, ?_, ?_, ?_, ?_⟩
      · simp [idsLoop, hs]
      · have h1 : ((c.withText (some issueId)).attribSet "primary" "true").attribGet
            "source" = some s := by
          rw [attribGet_attribSet_ne _ _ _ _ (by decide), attribGet_withText]
          exact hs
        simp [firstSource, List.find?, h1, text_attribSet, text_withText,
          attribGet_attribSet_self]
      · intro _
        have h1 : ((c.withText (some issueId)).attribSet "primary" "true").attribGet
            "source" = some s := by
          rw [attribGet_attribSet_ne _ _ _ _ (by decide), attribGet_withText]
          exact hs
        constructor
        · rfl
        · simp [countSource, List.filter, h1, hs]
      · intro habs
        simp [firstSource, List.find?, hs] at habs
    · obtain ⟨cs', hloop, hA, hB, hC⟩ := ih (fun q hq => hsrc q (List.mem_cons_of_mem _ hq))
      have hcne : (c.attribGet "source" == some nm) = false := by
        rw [hs]
        exact beq_eq_false_iff_ne.mpr (by simpa using heq)
      refine ⟨c :: cs', ?_, ?_, ?_, ?_⟩
      · simp [idsLoop, hs, heq, hloop, Except.map]
      · simpa [firstSource, List.find?, hcne] using hA
      · intro h
        rw [show firstSource nm (c :: cs) = firstSource nm cs by
          simp [firstSource, List.find?, hcne]] at h
        obtain ⟨hlen, hcount⟩ := hB h
        constructor
        · simp [hlen]
        · simpa [countSource, List.filter, hcne] using hcount
      · intro h
        rw [show firstSource nm (c :: cs) = firstSource nm cs by
          simp [firstSource, List.find?, hcne]] at h
        obtain ⟨happ, hcount⟩ := hC h
        constructor
        · rw [happ]; rfl
        · simpa [countSource, List.filter, hcne] using hcount

theorem updateFirstE_findC_eq {u : String} {f : Element → Except String Element}
    (hpres : ∀ a a', f a = .ok a' → a'.tag = a.tag) :
    ∀ {cs cs' : List Element} {e e' : Element},
      findC u cs = some e → f e = .ok e' → updateFirstE u f cs = .ok cs' →
      findC u cs' = some e' := by
  intro cs
  induction cs with
  | nil => intro cs' e e' hf; simp [findC] at hf
  | cons c cs ih =>
    intro cs' e e' hf hfe hup
    simp only [findC] at hf
    simp only [updateFirstE] at hup
    split at hf
    next hb =>
      cases Option.some.inj hf
      rw [if_pos hb, hfe] at hup
      simp only [Except.map] at hup
      cases Except.ok.inj hup
      have : (e'.tag == u) = true := by rw [hpres _ _ hfe]; exact hb
      simp [findC, this]
    next hb =>
      rw [if_neg (by simp [hb])] at hup
      cases hrec : updateFirstE u f cs with
      | error err => rw [hrec] at hup; simp [Except.map] at hup
      | ok cs'' =>
        rw [hrec] at hup
        simp only [Except.map] at hup
        cases Except.ok.inj hup
        simp only [findC, hb, Bool.false_eq_true, if_false]
        exact ih hf hfe hrec

/-- C8: with a non-empty issue id and a present data origin, the `IDS`
upsert (a) succeeds when every scanned child has a `source` attribute,
(b) overwrites the text of the first child whose `source` equals the
origin name and sets `primary="true"` without adding a new element, so a
second encode with the same origin keeps exactly as many matching `ID`
children, and (c) appends a single new `ID` element with `source` and
`primary="true"` attributes when no child matches; moreover the updated
`IDS` element reaches the output document of `convert` unchanged. -/
theorem C8_issue_id_upsert (md : MD) (e : Element) (nm : String)
    (hid : md.issue_id ≠ "") (hor : md.data_origin = some nm)
    (hsrc : ∀ c ∈ e.children, (c.attribGet "source").isSome) :
    (exceptIsOk (idsSection md e) = true ∧
      ∀ e', idsSection md e = .ok e' →
        e'.tag = e.tag ∧
        (firstSource nm e'.children).map (fun c => (c.text, c.attribGet "primary")) =
            some (some md.issue_id, some "true") ∧
        ((firstSource nm e.children).isSome →
            e'.children.length = e.children.length ∧
            countSource nm e'.children = countSource nm e.children) ∧
        (firstSource nm e.children = none →
            e'.children = e.children ++
                [Element.mk "ID" [("source", nm), ("primary", "true")] (some md.issue_id) []] ∧
            countSource nm e'.children = countSource nm e.children + 1)) ∧
    (∀ (tabs : RoleSynonyms) (doc : Element) (now : String) (r : Element) (md'' : MD)
        (idsEl idsEl' : Element),
      doc.findTag "IDS" = some idsEl → idsSection md idsEl = .ok idsEl' →
      convert tabs md (some doc) now = .ok (r, md'') →
      r.findTag "IDS" = some idsEl') := by
  constructor
  · obtain ⟨cs', hloop, hA, hB, hC⟩ := idsLoop_upsert md.issue_id nm hid e.children hsrc
    have hch : (e.withChildren cs').children = cs' := by
      obtain ⟨tg, a, tx, c⟩ := e; rfl
    have hsec : idsSection md e = .ok (e.withChildren cs') := by
      unfold idsSection
      rw [if_pos hid, hor, hloop]
      rfl
    constructor
    · rw [hsec]; rfl
    · intro e' he'
      rw [hsec] at he'
      cases Except.ok.inj he'
      refine ⟨idsSection_pres md e _ hsec, ?_, ?_, ?_⟩
      · rw [hch]; exact hA
      · rw [hch]; exact hB
      · rw [hch]; exact hC
  · intro tabs doc now r md'' idsEl idsEl' hdoc hsecEl hc
    obtain ⟨cs2, hE, hr, -⟩ := convert_ok_inv hc
    subst hr
    rw [findTag_withChildren]
    have hfpost : (postSteps md now).find? (fun p => p.1 == "IDS") = none := rfl
    rw [findC_applySteps_none _ (postSteps_pres md now) hfpost]
    have hfpre : (preSteps tabs md (normFormat md) (genresAfterManga md)).find?
        (fun p => p.1 == "IDS") = none := rfl
    have h0 : findC "IDS" ((some doc).getD freshRoot).children = some idsEl := hdoc
    have h1 : findC "IDS"
        (topTags.foldl ensureChild ((some doc : Option Element).getD freshRoot).children)
        = some idsEl := by
      rw [findC_foldl_ensure_preserve topTags _ (by rw [h0]; rfl)]
      exact h0
    have h2 : findC "IDS"
        (applySteps (preSteps tabs md (normFormat md) (genresAfterManga md))
          (topTags.foldl ensureChild ((some doc : Option Element).getD freshRoot).children))
        = some idsEl := by
      rw [findC_applySteps_none _
        (preSteps_pres tabs md (normFormat md) (genresAfterManga md)) hfpre]
      exact h1
    exact updateFirstE_findC_eq (idsSection_pres md) h2 hsecEl hE

/-- C8 witness: with origin `Metron` and issue id `123`, an `IDS` holding
`<ID source="Metron">old</ID>` is updated in place: same single child,
text `123`, `primary="true"`. -/
theorem C8_issue_id_upsert_witness :
    exceptIsOk (idsSection c8md c8ids) = true ∧
    idsSection c8md c8ids = .ok (.mk "IDS" [] none
      [.mk "ID" [("source", "Metron"), ("primary", "true")] (some "123") []]) := by
  have h := C8_issue_id_upsert c8md c8ids "Metron" (by decide) rfl (by decide)
  exact ⟨h.1.1, rfl⟩

/-- C9 counterexample: the empty record is returned by the encoder
entirely unchanged - no field is replaced - so "for every record ... the
caller's record differs from its pre-encode value" is false; in
particular an empty `maturity_rating` is *not* replaced by its normalised
value `Unknown`. -/
theorem C9_no_mutation_on_empty :
    (convert specSynonyms {} none "T9c").toOption.map Prod.snd = some {} := rfl

/-- C9 (amended): encoding mutates its metadata argument conditionally:
when series and format are both non-empty, `format` is replaced by its
normalised canonical value; when `maturity_rating` is non-empty it is
replaced by its normalised canonical value; when `manga` casefolds to a
string starting with "yes", the literal genre `Manga` is inserted into
the record's own genre set; all other fields are untouched.  Records with
none of these set are returned unchanged. -/
theorem C9_metadata_mutation {tabs : RoleSynonyms} {md : MD} {rootOpt : Option Element}
    {now : String} {r : Element} {md' : MD}
    (h : convert tabs md rootOpt now = .ok (r, md')) :
    md'.format =
      (if md.series ≠ "" ∧ md.format ≠ "" then normalizeFormat md.format else md.format) ∧
    md'.maturity_rating =
      (if md.maturity_rating ≠ "" then normalizeRating md.maturity_rating
       else md.maturity_rating) ∧
    md'.genres = genresAfterManga md ∧
    ((match md.manga with
      | some m => pyStartsWith "yes" (casefold m)
      | none => false) = true → "Manga" ∈ md'.genres) ∧
    md'.series = md.series ∧ md'.issue = md.issue ∧ md'.title = md.title ∧
    md'.credits = md.credits ∧ md'.issue_id = md.issue_id ∧
    md'.data_origin = md.data_origin ∧ md'.year = md.year := by
  obtain ⟨cs2, -, -, hmd⟩ := convert_ok_inv h
  subst hmd
  refine ⟨rfl, rfl, rfl, ?_, rfl, rfl, rfl, rfl, rfl, rfl, rfl⟩
  intro hm
  show "Manga" ∈ genresAfterManga md
  rw [genresAfterManga, if_pos hm]
  unfold setAdd
  by_cases hmem : "Manga" ∈ md.genres
  · rw [if_pos hmem]; exact hmem
  · rw [if_neg hmem]
    exact List.mem_append_right _ (List.mem_singleton_self _)

/-- C9 witness: a record with series "S", format "TPB", rating "Mature"
and manga "Yes" comes back from the encoder with format
`Trade Paperback`, rating `Mature` and genre `Manga` added - differing
from its pre-encode value. -/
theorem C9_metadata_mutation_witness :
    convert specSynonyms c9md none "T9" = .ok (c9res.1, c9res.2) ∧
    c9res.2.format = "Trade Paperback" ∧
    c9res.2.maturity_rating = "Mature" ∧
    "Manga" ∈ c9res.2.genres ∧
    c9res.2 ≠ c9md := by
  obtain ⟨h1, h2, h3, h4, -⟩ := C9_metadata_mutation
    (show convert specSynonyms c9md none "T9" = .ok (c9res.1, c9res.2) from rfl)
  refine ⟨rfl, ?_, ?_, h4 (by decide), by decide⟩
  · rw [h1]; rfl
  · rw [h2]; rfl

theorem idsLoop_origin_none (issueId : String) :
    ∀ cs : List Element, exceptIsOk (idsLoop issueId none cs) = false := by
  intro cs
  induction cs with
  | nil => rfl
  | cons c cs ih =>
    simp only [idsLoop]
    cases h : c.attribGet "source" <;> rfl

theorem idsSection_origin_none (md : MD) (e : Element)
    (hid : md.issue_id ≠ "") (hor : md.data_origin = none) :
    exceptIsOk (idsSection md e) = false := by
  unfold idsSection
  rw [if_pos hid, hor, exceptIsOk_map]
  exact idsLoop_origin_none md.issue_id e.children

theorem convert_err_of_idsSection {tabs : RoleSynonyms} {md : MD}
    {rootOpt : Option Element} {now : String}
    (hids : ∀ e, exceptIsOk (idsSection md e) = false) :
    exceptIsOk (convert tabs md rootOpt now) = false := by
  unfold convert
  have hfpre : (preSteps tabs md (normFormat md) (genresAfterManga md)).find?
      (fun p => p.1 == "IDS") = none := rfl
  obtain ⟨e, he, -⟩ := findC_exists_of_isSome
    (findC_foldl_ensure_mem topTags (show "IDS" ∈ topTags by decide)
      ((rootOpt.getD freshRoot).children))
  have he1 : findC "IDS"
      (applySteps (preSteps tabs md (normFormat md) (genresAfterManga md))
        (topTags.foldl ensureChild (rootOpt.getD freshRoot).children)) = some e := by
    rw [findC_applySteps_none _
      (preSteps_pres tabs md (normFormat md) (genresAfterManga md)) hfpre]
    exact he
  have herr := updateFirstE_error_at he1 (hids e)
  split
  next => rfl
  next cs2 hE2 => rw [hE2] at herr; simp [exceptIsOk] at herr

theorem exceptIsOk_false_iff {ε α : Type} (x : Except ε α) :
    exceptIsOk x = false ↔ ∃ err, x = .error err := by
  cases x <;> simp [exceptIsOk]

theorem idsLoop_sourceless (issueId nm : String) :
    ∀ (pre : List Element) (c : Element) (post : List Element),
      (∀ p ∈ pre, ∃ s, p.attribGet "source" = some s ∧ s ≠ nm) →
      c.attribGet "source" = none →
      exceptIsOk (idsLoop issueId (some nm) (pre ++ c :: post)) = false := by
  intro pre
  induction pre with
  | nil =>
    intro c post _ hc
    rw [List.nil_append]
    simp only [idsLoop]
    rw [hc]
    rfl
  | cons p pre ih =>
    intro c post hpre hc
    obtain ⟨s, hs, hsne⟩ := hpre p (List.mem_cons_self _ _)
    rw [List.cons_append]
    simp only [idsLoop]
    rw [hs]
    simp only [hsne, if_false, exceptIsOk_map]
    exact ih c post (fun q hq => hpre q (List.mem_cons_of_mem _ hq)) hc

/-- C10 counterexample: with a non-empty issue id and a present data
origin, a document whose `IDS` holds a sourceless `ID` child *after* the
matching child encodes without error - the loop breaks at the first match
and never reads the later child's `source` attribute, so "if ... any
existing ID child lacks a source attribute, the encoder raises" is
false. -/
theorem C10_sourceless_after_match_ok :
    c10md.issue_id ≠ "" ∧
    c10ids.children.map (fun c => c.attribGet "source") = [some "Metron", none] ∧
    exceptIsOk (idsSection c10md c10ids) = true ∧
    exceptIsOk (convert specSynonyms c10md
      (some (.mk "MetronInfo" [] none [c10ids])) "T10c") = true :=
  ⟨by decide, by decide, rfl, rfl⟩

/-- C10 (amended): with a non-empty issue id, (a, b) a null data origin
always makes the IDS block raise (`AttributeError`), so the encoder
produces no document; (c) a child lacking a `source` attribute makes the
block raise (`KeyError`) exactly when it is scanned, i.e. when every
child before it fails to match the origin name - children after the first
match are never examined; (d) under a null data origin, `write_tags` on a
supporting archive catches the error and returns false. -/
theorem C10_ids_preconditions :
    (∀ (md : MD) (e : Element), md.issue_id ≠ "" → md.data_origin = none →
        exceptIsOk (idsSection md e) = false) ∧
    (∀ (tabs : RoleSynonyms) (md : MD) (rootOpt : Option Element) (now : String),
        md.issue_id ≠ "" → md.data_origin = none →
        exceptIsOk (convert tabs md rootOpt now) = false) ∧
    (∀ (md : MD) (e : Element) (nm : String) (pre : List Element) (c : Element)
        (post : List Element),
        md.issue_id ≠ "" → md.data_origin = some nm →
        e.children = pre ++ c :: post →
        (∀ p ∈ pre, ∃ s, p.attribGet "source" = some s ∧ s ≠ nm) →
        c.attribGet "source" = none →
        exceptIsOk (idsSection md e) = false) ∧
    (∀ (tabs : RoleSynonyms) (md : MD) (now : String) (a : ArchiveModel),
        md.issue_id ≠ "" → md.data_origin = none →
        a.supports_files = .ok true →
        write_tags tabs md now a = .ok false) := by
  refine ⟨?_, ?_, ?_, ?_⟩
  · exact fun md e hid hor => idsSection_origin_none md e hid hor
  · exact fun tabs md rootOpt now hid hor =>
      convert_err_of_idsSection (fun e => idsSection_origin_none md e hid hor)
  · intro md e nm pre c post hid hor hch hpre hc
    unfold idsSection
    rw [if_pos hid, hor, exceptIsOk_map, hch]
    exact idsLoop_sourceless md.issue_id nm pre c post hpre hc
  · intro tabs md now a hid hor hsup
    have hbm : ∀ xml, exceptIsOk (bytesFromMetadata tabs md now xml) = false := by
      intro xml
      cases xml with
      | none =>
        show exceptIsOk ((convert tabs md none now).map Prod.fst) = false
        rw [exceptIsOk_map]
        exact convert_err_of_idsSection (fun e => idsSection_origin_none md e hid hor)
      | some pb =>
        cases pb with
        | malformed => rfl
        | wellFormed r =>
          show exceptIsOk ((convert tabs md (some r) now).map Prod.fst) = false
          rw [exceptIsOk_map]
          exact convert_err_of_idsSection (fun e => idsSection_origin_none md e hid hor)
    unfold write_tags supports_tags
    rw [hsup]
    by_cases hht : has_tags a
    · simp only [hht, if_true]
      cases hrf : a.read_file metronFile with
      | error err => simp [Bind.bind, Except.bind, hrf]
      | ok b =>
        obtain ⟨err, herr⟩ := (exceptIsOk_false_iff _).mp (hbm (some b))
        simp [Bind.bind, Except.bind, hrf, pure, Except.pure, herr]
    · simp only [hht, if_false, Bool.false_eq_true]
      obtain ⟨err, herr⟩ := (exceptIsOk_false_iff _).mp (hbm none)
      simp [Bind.bind, Except.bind, pure, Except.pure, herr]

/-- C10 witness: the amended theorem applied at a concrete record with a
null data origin. -/
theorem C10_ids_preconditions_witness :
    exceptIsOk (idsSection { issue_id := "7", data_origin := none } (.mk "IDS" [] none []))
      = false :=
  C10_ids_preconditions.1 { issue_id := "7", data_origin := none }
    (.mk "IDS" [] none []) (by decide) rfl

end Metron
